import Mathlib

/-!
Verification of the RiskEngine-JS anti-abuse engine against its
natural-language specification.

Shallow embedding conventions:
* JS numbers are embedded as exact rationals (`ℚ`); every computation the
  theorems below evaluate stays within arithmetic that IEEE doubles perform
  exactly, so the embedding agrees with the source on those runs.
* Timestamps are `ℕ` milliseconds; `Date.now()` becomes an explicit `now`
  argument threaded through each operation.
* JS `Map`s become association lists in insertion order (`JMap`), matching
  JS `Map` iteration order; `Map.set` on an existing key updates in place.
* `null`/`undefined` become `Option`; JS truthiness of strings and numbers
  (empty string and `0` are falsy) is modelled explicitly where the source
  relies on it.
* The floating-point-transcendental parts of the pipeline (the behavior
  analyzer's full path and the four pattern sub-detectors that use
  `Math.log2`/`Math.sqrt`) are abstracted as explicit function parameters
  (`BFull`, `PDOther`); every theorem that touches them holds for all
  values of these parameters, so nothing proved depends on them.
-/

set_option maxRecDepth 10000

/- The Batteries rational operations are marked irreducible, which blocks
kernel evaluation of concrete traces; the embedding computes with exact
rationals, so they are made semireducible for this file. Every proof still
passes through the kernel unchanged. -/
set_option allowUnsafeReducibility true
attribute [local semireducible] Rat.add Rat.mul Rat.sub Rat.inv Rat.ofScientific

namespace RiskEngineJS

/-- A JS Map with string keys: an association list in insertion order. -/
def JMap (α : Type) : Type := List (String × α)

namespace JMap

def empty {α : Type} : JMap α := []

/-- Map.get: first (only) binding of the key. -/
def lookup {α : Type} : JMap α → String → Option α
  | [], _ => none
  | (k', v) :: rest, k => if k' = k then some v else lookup rest k

/-- Map.set: update in place when present (keeping the key's position),
append otherwise. -/
def set {α : Type} : JMap α → String → α → JMap α
  | [], k, v => [(k, v)]
  | (k', v') :: rest, k, v =>
    if k' = k then (k', v) :: rest else (k', v') :: set rest k v

/-- Map.delete: remove the binding of the key. A JS `Map` never holds a key
twice (set updates in place), so removing every matching pair agrees with
`Map.delete` on all reachable states. -/
def erase {α : Type} (m : JMap α) (k : String) : JMap α :=
  m.filter (fun p => p.1 ≠ k)

def size {α : Type} (m : JMap α) : ℕ := m.length

theorem lookup_erase_self {α : Type} (m : JMap α) (k : String) :
    (m.erase k).lookup k = none := by
  induction m with
  | nil => rfl
  | cons hd tl ih =>
    obtain ⟨k', v'⟩ := hd
    by_cases h : k' = k
    · simpa [erase, h] using ih
    · simpa [erase, lookup, h] using ih

theorem lookup_erase_ne {α : Type} (m : JMap α) (k k' : String) (h : k' ≠ k) :
    (m.erase k).lookup k' = m.lookup k' := by
  have hkk : ¬(k = k') := fun hh => h hh.symm
  induction m with
  | nil => rfl
  | cons hd tl ih =>
    obtain ⟨k2, v2⟩ := hd
    by_cases h2 : k2 = k
    · subst h2
      simpa [erase, lookup, List.filter, hkk] using ih
    · by_cases h3 : k2 = k'
      · subst h3
        simp [erase, lookup, List.filter, h2, h]
      · simpa [erase, lookup, List.filter, h2, h3] using ih

theorem lookup_set_self {α : Type} (m : JMap α) (k : String) (v : α) :
    (m.set k v).lookup k = some v := by
  induction m with
  | nil => simp [set, lookup]
  | cons hd tl ih =>
    obtain ⟨k2, v2⟩ := hd
    by_cases h2 : k2 = k
    · simp [set, lookup, h2]
    · simp [set, lookup, h2, ih]

theorem lookup_set_ne {α : Type} (m : JMap α) (k k' : String) (v : α)
    (h : k' ≠ k) : (m.set k v).lookup k' = m.lookup k' := by
  have hkk : ¬(k = k') := fun hh => h hh.symm
  induction m with
  | nil => simp [set, lookup, hkk]
  | cons hd tl ih =>
    obtain ⟨k2, v2⟩ := hd
    by_cases h2 : k2 = k
    · subst h2
      simp [set, lookup, hkk]
    · simp [set, lookup, h2, ih]

end JMap

/-! JS primitive helpers: 32-bit coercions (`ToInt32`/`ToUint32`), the
bitwise operators the hashes use, number-to-string conversions, and string
truthiness. -/

/-- JS ToInt32: reduce mod 2^32 into the signed range. -/
def toInt32 (n : ℤ) : ℤ := (n + 2 ^ 31).emod (2 ^ 32) - 2 ^ 31

/-- JS ToUint32: reduce mod 2^32 into the unsigned range. -/
def toUint32 (n : ℤ) : ℕ := (n.emod (2 ^ 32)).toNat

/-- JS `a ^ b` on numbers: both operands ToInt32, bitwise xor, signed result. -/
def jsXor (a b : ℤ) : ℤ := toInt32 ((Nat.xor (toUint32 a) (toUint32 b) : ℕ) : ℤ)

/-- JS `a << k`: ToInt32 the operand, shift, ToInt32 the result. -/
def jsShl (a : ℤ) (k : ℕ) : ℤ := toInt32 (toInt32 a * 2 ^ k)

/-- One digit in base ≤ 36, lowercase. -/
def digitChar (n : ℕ) : Char :=
  if n < 10 then Char.ofNat (48 + n) else Char.ofNat (87 + n)

/-- Digit accumulation with explicit fuel (the quotient shrinks at every
step, so fuel `n` suffices and the zero-fuel branch is unreachable). -/
def natDigitsAux (b : ℕ) : ℕ → ℕ → List Char
  | 0, n => [digitChar (n % b)]
  | fuel + 1, n =>
      if n / b = 0 then [digitChar (n % b)]
      else natDigitsAux b fuel (n / b) ++ [digitChar (n % b)]

/-- Digits of `n` in base `b` (most significant first); `[0]` for zero. -/
def natDigits (b : ℕ) (n : ℕ) : List Char :=
  if n = 0 ∨ b < 2 then [digitChar (n % 36)]
  else natDigitsAux b n n

/-- JS `Number.prototype.toString(16)` for a nonnegative integer. -/
def toHex (n : ℕ) : String := ⟨natDigits 16 n⟩

/-- JS `Number.prototype.toString(36)` for a nonnegative integer. -/
def toString36 (n : ℕ) : String := ⟨natDigits 36 n⟩

/-- JS string truthiness: empty string is falsy. -/
def truthyStr : Option String → Option String
  | some s => if s = "" then none else some s
  | none => none

/-- JS `a || b` on possibly-missing strings. -/
def jsOrStr (a b : Option String) : Option String :=
  match truthyStr a with
  | some s => some s
  | none => truthyStr b

/-- JS number truthiness on a possibly-missing number: 0 is falsy. -/
def truthyNum : Option ℚ → Option ℚ
  | some q => if q = 0 then none else some q
  | none => none

/-- `String.prototype.split` with a nonempty string separator, by a fuel
recursion over the remaining characters (each step consumes at least one
character). -/
def splitCharsAux (sep : List Char) : ℕ → List Char → List Char → List (List Char)
  | 0, acc, s => [acc.reverse ++ s]
  | fuel + 1, acc, s =>
      match s with
      | [] => [acc.reverse]
      | c :: rest =>
          if sep ≠ [] ∧ sep.isPrefixOf (c :: rest) then
            acc.reverse :: splitCharsAux sep fuel [] ((c :: rest).drop sep.length)
          else splitCharsAux sep fuel (c :: acc) rest

def jsSplit (s sep : String) : List String :=
  (splitCharsAux sep.data (s.data.length + 1) [] s.data).map (fun l => ⟨l⟩)

/-- `String.prototype.toLowerCase` (character-wise; the embedded strings
are ASCII). -/
def jsToLower (s : String) : String := ⟨s.data.map Char.toLower⟩

def isJsSpace (c : Char) : Bool :=
  c = ' ' || c = '\t' || c = '\n' || c = '\r'

/-- `String.prototype.trim` over the common whitespace characters. -/
def jsTrim (s : String) : String :=
  ⟨((s.data.dropWhile isJsSpace).reverse.dropWhile isJsSpace).reverse⟩

/-! MathUtils (src/src/utils/MathUtils.js): only the members the embedded
code paths call — mean, clamp, exponentialMovingAverage. The remaining
members (standardDeviation, sigmoid, …) involve `Math.sqrt`/`Math.exp` and
occur only inside the abstracted analyzer parts. -/

namespace MathUtils

/-- `mean`: 0 for the empty list, else sum over length. -/
def mean (arr : List ℚ) : ℚ :=
  if arr.length = 0 then 0 else arr.sum / arr.length

/-- `clamp(value, min, max)`. -/
def clamp (value lo hi : ℚ) : ℚ := min (max value lo) hi

/-- `exponentialMovingAverage(arr, alpha)`. -/
def exponentialMovingAverage (arr : List ℚ) (alpha : ℚ) : ℚ :=
  match arr with
  | [] => 0
  | x :: rest => rest.foldl (fun ema v => alpha * v + (1 - alpha) * ema) x

end MathUtils

/-- JS `Array.prototype.slice(-n)`: the last `n` elements. -/
def lastN {α : Type} (n : ℕ) (l : List α) : List α :=
  l.drop (l.length - n)

/-! MemoryStore (src/src/utils/TimeSeriesAnalyzer.js, second module):
an in-process TTL store. The value type is a parameter; the engine
instantiates it with `StoreVal`. The periodic `cleanup` timer becomes an
explicit operation (never invoked by the embedded traces). -/

structure StoreEntry (α : Type) where
  value : α
  createdAt : ℕ
  accessedAt : ℕ
  accessCount : ℕ

structure StoreStats where
  hits : ℕ := 0
  misses : ℕ := 0
  evictions : ℕ := 0

structure MemoryStore (α : Type) where
  maxSize : ℕ := 100000
  ttl : ℕ := 3600000
  store : JMap (StoreEntry α)
  expirations : JMap ℕ
  stats : StoreStats := {}

namespace MemoryStore

def empty (α : Type) (maxSize : ℕ := 100000) (ttl : ℕ := 3600000) :
    MemoryStore α :=
  { maxSize := maxSize, ttl := ttl, store := [], expirations := [] }

/-- `evictOldest`: linear scan for the entry with strictly smallest
`accessedAt` (the first such in insertion order), delete it. -/
def evictOldest {α : Type} (ms : MemoryStore α) : MemoryStore α :=
  let oldest := ms.store.foldl
    (fun acc p =>
      match acc with
      | none => some p
      | some q => if p.2.accessedAt < q.2.accessedAt then some p else acc)
    none
  match oldest with
  | none => ms
  | some (k, _) =>
      { ms with
        store := ms.store.erase k
        expirations := ms.expirations.erase k
        stats := { ms.stats with evictions := ms.stats.evictions + 1 } }

/-- `delete(key)`. -/
def del {α : Type} (ms : MemoryStore α) (key : String) : MemoryStore α :=
  { ms with
    store := ms.store.erase key
    expirations := ms.expirations.erase key }

/-- `set(key, value, ttl)`; `ttl` is signed since a caller may pass a
nonpositive one, in which case the source leaves any old expiration. -/
def set {α : Type} (ms : MemoryStore α) (now : ℕ) (key : String) (value : α)
    (ttl : ℤ) : MemoryStore α :=
  let ms := if ms.store.size ≥ ms.maxSize then ms.evictOldest else ms
  let ms := { ms with
    store := ms.store.set key
      { value := value, createdAt := now, accessedAt := now, accessCount := 0 } }
  if ttl > 0 then
    { ms with expirations := ms.expirations.set key ((now : ℤ) + ttl).toNat }
  else ms

/-- `set` with the store's default ttl. -/
def setD {α : Type} (ms : MemoryStore α) (now : ℕ) (key : String)
    (value : α) : MemoryStore α :=
  ms.set now key value (ms.ttl : ℤ)

/-- `get(key)`: null on a missing entry; an entry whose (truthy) expiration
lies strictly in the past is deleted and reported missing; otherwise the
access is recorded and the value returned. -/
def get {α : Type} (ms : MemoryStore α) (now : ℕ) (key : String) :
    Option α × MemoryStore α :=
  match ms.store.lookup key with
  | none =>
      (none, { ms with stats := { ms.stats with misses := ms.stats.misses + 1 } })
  | some entry =>
      match ms.expirations.lookup key with
      | some e =>
          if e ≠ 0 ∧ now > e then
            (none,
              { ms.del key with
                stats := { ms.stats with misses := ms.stats.misses + 1 } })
          else
            (some entry.value,
              { ms with
                store := ms.store.set key
                  { entry with accessedAt := now, accessCount := entry.accessCount + 1 }
                stats := { ms.stats with hits := ms.stats.hits + 1 } })
      | none =>
          (some entry.value,
            { ms with
              store := ms.store.set key
                { entry with accessedAt := now, accessCount := entry.accessCount + 1 }
              stats := { ms.stats with hits := ms.stats.hits + 1 } })

/-- `has(key)`. -/
def hasKey {α : Type} (ms : MemoryStore α) (now : ℕ) (key : String) :
    Bool × MemoryStore α :=
  match ms.store.lookup key with
  | none => (false, ms)
  | some _ =>
      match ms.expirations.lookup key with
      | some e =>
          if e ≠ 0 ∧ now > e then (false, ms.del key) else (true, ms)
      | none => (true, ms)

end MemoryStore

/-! RateLimiter (src/src/utils/TimeSeriesAnalyzer.js, third module):
sliding-window log with adaptive penalty/reward. The token-bucket and
leaky-bucket primitives are not modelled (no claim touches them and the
modelled operations never create their namespaced keys); `reset` still
erases their keys, which is a no-op here. -/

structure Bucket where
  requests : List ℕ
  createdAt : ℕ
  lastAccess : ℕ
  violations : ℕ

structure RLSample where
  count : ℕ
  limit : ℕ
  timestamp : ℕ

structure RLHistory where
  samples : List RLSample
  maxCount : ℕ
  totalSamples : ℕ

structure RLOptions where
  limit : Option ℕ := none
  riskScore : Option ℚ := none

structure CheckResult where
  allowed : Bool
  remaining : ℤ
  resetIn : ℕ
  limit : ℕ
  currentCount : ℕ
  severity : Option ℚ := none
  reason : Option String := none
  retryAfter : Option ℤ := none

structure RateLimiter where
  defaultLimit : ℕ := 100
  windowSize : ℕ := 60000
  burstMultiplier : ℚ := 2
  adaptiveEnabled : Bool := true
  penaltyDecay : ℚ := 0.95
  buckets : JMap Bucket := []
  userLimits : JMap ℕ := []
  penalties : JMap ℚ := []
  history : JMap RLHistory := []
  totalRequests : ℕ := 0
  blockedRequests : ℕ := 0

/-- JS truthiness of a possibly-missing natural number: 0 is falsy. -/
def truthyNat : Option ℕ → Option ℕ
  | some n => if n = 0 then none else some n
  | none => none

namespace RateLimiter

/-- `getOrCreateBucket`. -/
def getOrCreateBucket (rl : RateLimiter) (identifier : String) (now : ℕ) :
    Bucket × RateLimiter :=
  match rl.buckets.lookup identifier with
  | some b => (b, rl)
  | none =>
      let b : Bucket :=
        { requests := [], createdAt := now, lastAccess := now, violations := 0 }
      (b, { rl with buckets := rl.buckets.set identifier b })

/-- `pruneOldRequests`: keep timestamps strictly newer than `now - windowSize`
(the cutoff compared over ℤ, as JS numbers may go negative). -/
def pruneOldRequests (windowSize : ℕ) (b : Bucket) (now : ℕ) : Bucket :=
  { b with requests := b.requests.filter (fun ts => (ts : ℤ) > (now : ℤ) - windowSize) }

/-- `getEffectiveLimit`: `options.limit || userLimits.get(id) || defaultLimit`,
divided by the penalty and floored, shrunk by a truthy risk score, floored
at 1. -/
def getEffectiveLimit (rl : RateLimiter) (identifier : String)
    (opts : RLOptions) : ℕ :=
  let baseLimit : ℕ :=
    ((truthyNat opts.limit).orElse
      (fun _ => truthyNat (rl.userLimits.lookup identifier))).getD rl.defaultLimit
  let penalty : ℚ := (truthyNum (rl.penalties.lookup identifier)).getD 1
  let adjustedLimit : ℤ := Int.floor ((baseLimit : ℚ) / penalty)
  match truthyNum opts.riskScore with
  | some q =>
      (max 1 (Int.floor ((adjustedLimit : ℚ) * (1 - q * 0.7)))).toNat
  | none => (max 1 adjustedLimit).toNat

/-- `calculateSeverity`. -/
def calculateSeverity (current limit burstLimit : ℕ) : ℚ :=
  if current ≥ burstLimit then 1
  else ((current : ℚ) - limit) / ((burstLimit : ℚ) - limit)

/-- `applyPenalty`: grow the penalty by up to 50%, capped at 10; count the
violation on the bucket. -/
def applyPenalty (rl : RateLimiter) (identifier : String) (severity : ℚ) :
    RateLimiter :=
  let currentPenalty : ℚ := (truthyNum (rl.penalties.lookup identifier)).getD 1
  let newPenalty := min (currentPenalty * (1 + severity * 0.5)) 10
  let rl := { rl with penalties := rl.penalties.set identifier newPenalty }
  match rl.buckets.lookup identifier with
  | some b =>
      { rl with buckets :=
          rl.buckets.set identifier { b with violations := b.violations + 1 } }
  | none => rl

/-- `applyReward`: decay an existing penalty above 1 toward 1, dropping the
entry once within 0.01 of 1. -/
def applyReward (rl : RateLimiter) (identifier : String) : RateLimiter :=
  match rl.penalties.lookup identifier with
  | some p =>
      if p ≠ 0 ∧ p > 1 then
        let newPenalty := max (p * rl.penaltyDecay) 1
        if newPenalty ≤ 1.01 then
          { rl with penalties := rl.penalties.erase identifier }
        else
          { rl with penalties := rl.penalties.set identifier newPenalty }
      else rl
  | none => rl

/-- `getResetTime`. -/
def getResetTime (windowSize : ℕ) (b : Bucket) (now : ℕ) : ℕ :=
  match b.requests.min? with
  | none => 0
  | some oldest => (((oldest : ℤ) + windowSize) - now).toNat

/-- `calculateRetryAfter`; reads the penalty as stored after `applyPenalty`. -/
def calculateRetryAfter (rl : RateLimiter) (identifier : String)
    (severity : ℚ) : ℤ :=
  let baseDelay : ℚ := (rl.windowSize : ℚ) / 10
  let penaltyMultiplier : ℚ := (truthyNum (rl.penalties.lookup identifier)).getD 1
  Int.floor (baseDelay * severity * penaltyMultiplier)

/-- `updateHistory`. -/
def updateHistory (rl : RateLimiter) (identifier : String)
    (count limit now : ℕ) : RateLimiter :=
  let h : RLHistory :=
    (rl.history.lookup identifier).getD
      { samples := [], maxCount := 0, totalSamples := 0 }
  let samples := h.samples ++ [{ count := count, limit := limit, timestamp := now }]
  let h : RLHistory :=
    { samples := if samples.length > 1000 then samples.drop (samples.length - 500) else samples
      maxCount := max h.maxCount count
      totalSamples := h.totalSamples + 1 }
  { rl with history := rl.history.set identifier h }

/-- `check(identifier, options)` (src/src/utils/TimeSeriesAnalyzer.js
lines 518-562). -/
def check (rl : RateLimiter) (identifier : String) (now : ℕ)
    (opts : RLOptions) : CheckResult × RateLimiter :=
  let gb := rl.getOrCreateBucket identifier now
  let bucket0 := gb.1
  let rl := gb.2
  let limit := rl.getEffectiveLimit identifier opts
  let bucket := pruneOldRequests rl.windowSize bucket0 now
  let rl := { rl with buckets := rl.buckets.set identifier bucket }
  let currentCount := bucket.requests.length
  let burstLimit := (Int.floor ((limit : ℚ) * rl.burstMultiplier)).toNat
  let rl := rl.updateHistory identifier currentCount limit now
  let rl := { rl with totalRequests := rl.totalRequests + 1 }
  if currentCount ≥ limit then
    let severity := calculateSeverity currentCount limit burstLimit
    let rl := rl.applyPenalty identifier severity
    let rl := { rl with blockedRequests := rl.blockedRequests + 1 }
    ({ allowed := false
       remaining := 0
       resetIn := getResetTime rl.windowSize bucket now
       limit := limit
       currentCount := currentCount
       severity := some severity
       reason := some (if currentCount ≥ burstLimit then "burst_exceeded" else "rate_exceeded")
       retryAfter := some (rl.calculateRetryAfter identifier severity) }, rl)
  else
    let bucket := { bucket with requests := bucket.requests ++ [now], lastAccess := now }
    let rl := { rl with buckets := rl.buckets.set identifier bucket }
    let rl :=
      if rl.adaptiveEnabled ∧ (currentCount : ℚ) < (limit : ℚ) * 0.5 then
        rl.applyReward identifier
      else rl
    ({ allowed := true
       remaining := (limit : ℤ) - currentCount - 1
       resetIn := getResetTime rl.windowSize bucket now
       limit := limit
       currentCount := currentCount + 1 }, rl)

/-- `reset(identifier)` (src/src/utils/TimeSeriesAnalyzer.js lines 854-860):
drops the identifier's bucket (and its token/leaky namespaced keys), its
penalty and its history — but not its user limit. -/
def reset (rl : RateLimiter) (identifier : String) : RateLimiter :=
  { rl with
    buckets :=
      ((rl.buckets.erase identifier).erase ("token:" ++ identifier)).erase
        ("leaky:" ++ identifier)
    penalties := rl.penalties.erase identifier
    history := rl.history.erase identifier }

/-- The penalty an identifier is subject to: the stored value, an absent
entry reading as 1. -/
def effPenalty (rl : RateLimiter) (identifier : String) : ℚ :=
  (rl.penalties.lookup identifier).getD 1

/-- The rate-limiter operations a caller can drive it with. -/
inductive RLOp where
  | checkOp (identifier : String) (now : ℕ) (opts : RLOptions)
  | resetOp (identifier : String)

def step (rl : RateLimiter) : RLOp → RateLimiter
  | .checkOp identifier now opts => (rl.check identifier now opts).2
  | .resetOp identifier => rl.reset identifier

def steps (rl : RateLimiter) (ops : List RLOp) : RateLimiter :=
  ops.foldl step rl

/-- Run a sequence of `check` calls on one identifier at the given times,
collecting the results. -/
def checkRun (rl : RateLimiter) (identifier : String) (times : List ℕ)
    (opts : RLOptions) : List CheckResult × RateLimiter :=
  match times with
  | [] => ([], rl)
  | t :: rest =>
      let p := rl.check identifier t opts
      let q := checkRun p.2 identifier rest opts
      (p.1 :: q.1, q.2)

end RateLimiter

/-! Events (the record `RiskEngine.recordEvent` builds) and the
PatternDetector's known-attack matching (src/src/core/PatternDetector.js).
The four other sub-detectors (sequence, temporal, anomalous, coordinated)
use `Math.log2`/`Math.sqrt`; they are abstracted as the `PDOther` parameter,
whose four risk lists `detect` splices around the attack patterns exactly
where the source does. The attack type and match counts never depend on
`PDOther`. -/

structure Event where
  timestamp : ℕ
  action : Option String := none
  endpoint : Option String := none
  ip : Option String := none
  userAgent : Option String := none
  responseTime : Option ℚ := none
  payloadSize : ℕ := 0
  statusCode : Option ℕ := none
  method : Option String := none
  targetId : Option String := none

/-- Does the character list decompose into a (possibly empty) concatenation
of the alternatives? Fuel-indexed; each alternative consumes at least one
character, so fuel `s.length` suffices. This is the matching relation of the
regex `(a1|a2|…)*` for nonempty literal alternatives. -/
def splitsAltsFuel (alts : List String) : ℕ → List Char → Bool
  | 0, s => s.isEmpty
  | fuel + 1, s =>
    if s.isEmpty then true
    else alts.any (fun a =>
      a.data ≠ [] && a.data.isPrefixOf s && splitsAltsFuel alts fuel (s.drop a.data.length))

def splitsAlts (alts : List String) (s : List Char) : Bool :=
  splitsAltsFuel alts s.length s

inductive AttackKind where
  | bruteForce
  | enumeration
  | scraping
  | cardTesting
  | accountTakeover
  | apiAbuse
deriving DecidableEq

/-- One entry of `initializeAttackPatterns` (PatternDetector.js lines
13-51): the regex `^(alt1|alt2|…)+$` is represented by its alternative
literals with `fullAnchor = true`; `apiAbuse`'s `^(api\/)+` has
`fullAnchor = false`. `timeWindow` (apiAbuse), `lowVariance` (scraping) and
`smallAmounts` (cardTesting) are declared in the source but never read by
`calculateAttackRisk`, so they are omitted. -/
structure AttackConfig where
  alts : List String
  fullAnchor : Bool
  minRepetitions : ℕ
  maxInterval : Option ℕ := none
  sequentialIds : Bool := false
  riskMultiplier : ℚ

def attackConfig : AttackKind → AttackConfig
  | .bruteForce =>
      { alts := ["login", "auth", "signin"], fullAnchor := true,
        minRepetitions := 5, maxInterval := some 5000, riskMultiplier := 1.5 }
  | .enumeration =>
      { alts := ["user", "account", "profile", "api/users"], fullAnchor := true,
        minRepetitions := 10, sequentialIds := true, riskMultiplier := 1.3 }
  | .scraping =>
      { alts := ["list", "search", "catalog", "products", "items"],
        fullAnchor := true, minRepetitions := 20, riskMultiplier := 1.2 }
  | .cardTesting =>
      { alts := ["payment", "checkout", "card", "validate"], fullAnchor := true,
        minRepetitions := 3, riskMultiplier := 2.0 }
  | .accountTakeover =>
      { alts := ["password", "reset", "recover", "2fa", "mfa"],
        fullAnchor := true, minRepetitions := 3, riskMultiplier := 1.8 }
  | .apiAbuse =>
      { alts := ["api/"], fullAnchor := false, minRepetitions := 100,
        riskMultiplier := 1.4 }

/-- The insertion order of `Object.entries(this.knownAttackPatterns)`. -/
def attackKinds : List AttackKind :=
  [.bruteForce, .enumeration, .scraping, .cardTesting, .accountTakeover, .apiAbuse]

/-- `config.pattern.test(s)` / `s.match(config.pattern)` as a Boolean, for a
string the caller has already lowercased (the regexes carry the `i` flag and
their literals are lowercase). A fully anchored `^(…)+$` matches exactly the
nonempty concatenations of alternatives; `^(api\/)+` matches exactly the
strings starting with `api/`. -/
def patternTest (k : AttackKind) (s : String) : Bool :=
  let cfg := attackConfig k
  if cfg.fullAnchor then s.data ≠ [] && splitsAlts cfg.alts s.data
  else cfg.alts.any (fun a => a.data.isPrefixOf s.data)

/-- `(e.action || e.endpoint || '').toLowerCase()`. -/
def eventActionStr (e : Event) : String :=
  jsToLower ((jsOrStr e.action e.endpoint).getD "")

/-- JS `Number(s)` restricted to optionally signed decimal integers; any
other shape reads as NaN (`none`). The repository only ever produces absent
`targetId`s, so `areSequential` never sees another shape. -/
def jsNumber? (s : String) : Option ℤ :=
  match s.data with
  | [] => none
  | '-' :: rest =>
      if rest ≠ [] ∧ rest.all Char.isDigit then
        some (-(rest.foldl (fun n c => n * 10 + (c.toNat - 48)) 0 : ℤ))
      else none
  | l =>
      if l.all Char.isDigit then
        some ((l.foldl (fun n c => n * 10 + (c.toNat - 48)) 0 : ℕ) : ℤ)
      else none

def countSequentialPairs : List ℤ → ℕ
  | a :: b :: rest =>
      (if (b - a).natAbs ≤ 1 then 1 else 0) + countSequentialPairs (b :: rest)
  | _ => 0

/-- `areSequential`. -/
def areSequential (values : List String) : Bool :=
  if values.length < 3 then false
  else
    let numeric := values.filterMap jsNumber?
    if numeric.length < 3 then false
    else
      (countSequentialPairs numeric : ℚ) / ((numeric.length : ℚ) - 1) > 0.7

/-- Consecutive differences of a timestamp list, as rationals. -/
def consecutiveDiffs : List ℕ → List ℚ
  | a :: b :: rest => ((b : ℚ) - (a : ℚ)) :: consecutiveDiffs (b :: rest)
  | _ => []

/-- `calculateAttackRisk(attackName, events, config)`. -/
def calculateAttackRisk (k : AttackKind) (events : List Event) : ℚ :=
  let cfg := attackConfig k
  let base1 : ℚ := (events.length : ℚ) / ((cfg.minRepetitions : ℚ) * 3)
  let base2 : ℚ :=
    match cfg.maxInterval with
    | some mi =>
        let intervals := consecutiveDiffs (events.map (·.timestamp))
        if MathUtils.mean intervals < (mi : ℚ) then base1 * 1.2 else base1
    | none => base1
  let base3 : ℚ :=
    if cfg.sequentialIds ∧
        areSequential (events.filterMap (fun e => truthyStr e.targetId)) then
      base2 * 1.3
    else base2
  MathUtils.clamp (base3 * cfg.riskMultiplier) 0 1

structure AttackPattern where
  attackName : AttackKind
  matchCount : ℕ
  risk : ℚ

/-- `detectKnownAttacks(events)` (PatternDetector.js lines 329-359): the
gate matches each pattern against the `'|'`-join of the lowercased actions;
a matching pattern is then counted per event and reported when the count
reaches `minRepetitions` and the risk exceeds 0.3. -/
def detectKnownAttacks (events : List Event) : List AttackPattern :=
  let actions := events.map eventActionStr
  let actionStr := String.intercalate "|" actions
  attackKinds.filterMap (fun k =>
    if patternTest k actionStr then
      let matchingEvents := events.filter (fun e => patternTest k (eventActionStr e))
      if matchingEvents.length ≥ (attackConfig k).minRepetitions then
        let risk := calculateAttackRisk k matchingEvents
        if risk > 0.3 then
          some { attackName := k, matchCount := matchingEvents.length, risk := risk }
        else none
      else none
    else none)

/-- `identifyPrimaryAttack`: the first attack pattern of maximal risk (the
source's stable descending sort followed by taking the head). -/
def identifyPrimaryAttack (l : List AttackPattern) : Option AttackKind :=
  (l.foldl
    (fun acc p =>
      match acc with
      | none => some p
      | some q => if p.risk > q.risk then some p else acc)
    none).map (·.attackName)

/-- `calculatePatternRisk(patterns)` over the patterns' risk values. -/
def calculatePatternRisk (risks : List ℚ) : ℚ :=
  match risks with
  | [] => 0
  | r :: rest =>
      let maxRisk := rest.foldl max r
      let avgRisk := MathUtils.mean (r :: rest)
      let bonus := min (((r :: rest).length : ℚ) / 10) 0.2
      MathUtils.clamp (maxRisk * 0.6 + avgRisk * 0.3 + bonus) 0 1

/-- The result of `PatternDetector.detect` as consumed by the orchestrator:
its fused pattern risk and the primary attack type. -/
structure PatternResult where
  riskScore : ℚ
  attackType : Option AttackKind

/-- The four sub-detectors of `detect` other than `detectKnownAttacks`
(sequence, temporal, anomalous, coordinated), abstracted as the lists of
risks they contribute. Their values never influence `attackType`. -/
def PDOther : Type :=
  List Event → List ℚ × List ℚ × List ℚ × List ℚ

/-- `detect(events)` (PatternDetector.js lines 53-86) with the default
`minPatternLength = 2` guard; the risks of all five detectors are
aggregated in the source's order. -/
def detect (pdOther : PDOther) (events : List Event) : PatternResult :=
  if events.length < 2 then { riskScore := 0, attackType := none }
  else
    let rest := pdOther events
    let attacks := detectKnownAttacks events
    let allRisks :=
      rest.1 ++ rest.2.1 ++ attacks.map (fun p => p.risk) ++ rest.2.2.1 ++ rest.2.2.2
    { riskScore := calculatePatternRisk allRisks
      attackType := identifyPrimaryAttack attacks }

/-! Requests (the adapter record `evaluate` consumes) and the Fingerprinter
(src/src/core/Fingerprinter.js). All fingerprinter arithmetic is integer or
rational, so it is embedded in full. -/

structure ClientInfo where
  timezone : Option String := none
  timezoneOffset : Option ℚ := none
  screenResolution : Option String := none
  colorDepth : Option ℕ := none
  platform : Option String := none
  mobile : Option Bool := none
  plugins : Option (List String) := none
  canvasHash : Option String := none
  webglHash : Option String := none
  fonts : Option (List String) := none
  audioHash : Option String := none
  doNotTrack : Option String := none
  cookiesEnabled : Option Bool := none
  localStorage : Option Bool := none
  sessionStorage : Option Bool := none
  hardwareConcurrency : Option ℚ := none
  deviceMemory : Option ℚ := none
  touchSupport : Option Bool := none
  connectionType : Option String := none
  downlink : Option ℚ := none

/-- The request record. `userObjectId` stands for `request.user?.id`;
`body` carries the JSON serialization of `request.body` (only its length and
truthiness are ever read). Header keys are the lowercase names the source
looks up. -/
structure Request where
  userId : Option String := none
  userObjectId : Option String := none
  sessionId : Option String := none
  ip : Option String := none
  method : Option String := none
  path : Option String := none
  url : Option String := none
  endpoint : Option String := none
  action : Option String := none
  headers : JMap String := []
  body : Option String := none
  responseTime : Option ℚ := none
  statusCode : Option ℕ := none
  client : Option ClientInfo := none

/-- `a || b` where `a` has already been reduced to its truthy part. -/
def jsOrRaw {α : Type} (ta : Option α) (b : Option α) : Option α :=
  match ta with
  | some a => some a
  | none => b

/-- Substring test (`String.prototype.includes` / an unanchored literal
regex). -/
def containsSub (pat s : List Char) : Bool :=
  (List.range (s.length + 1)).any (fun i => pat.isPrefixOf (s.drop i))

/-- Scan positions left to right, returning the first position where `f`
yields a value: the leftmost-match rule of JS regexes. -/
def scanFirst {β : Type} (f : List Char → Option β) : List Char → Option β
  | [] => f []
  | c :: rest =>
      match f (c :: rest) with
      | some b => some b
      | none => scanFirst f rest

def parseDigits (l : List Char) : ℕ :=
  l.foldl (fun n c => n * 10 + (c.toNat - 48)) 0

/-- First match of `/tok(\d+)/`: the token followed by at least one digit;
the maximal digit run is the capture. -/
def uaVersionDigits (tok : String) (ua : List Char) : Option String :=
  scanFirst
    (fun s =>
      if tok.data.isPrefixOf s then
        let d := (s.drop tok.data.length).takeWhile Char.isDigit
        if d ≠ [] then some ⟨d⟩ else none
      else none)
    ua

/-- First match of `/tok(\d+[sep]\d+)/` for a set of single-char
separators; the capture includes the separator. -/
def uaVersionTwoPart (tok : String) (seps : List Char) (ua : List Char) :
    Option String :=
  scanFirst
    (fun s =>
      if tok.data.isPrefixOf s then
        let after := s.drop tok.data.length
        let d1 := after.takeWhile Char.isDigit
        if d1 = [] then none
        else
          match after.drop d1.length with
          | c :: rest2 =>
              if c ∈ seps then
                let d2 := rest2.takeWhile Char.isDigit
                if d2 ≠ [] then some ⟨d1 ++ [c] ++ d2⟩ else none
              else none
          | [] => none
      else none)
    ua

/-- First match of `/Version\/(\d+).*Safari/` (`.` never needs to cross a
newline on user-agent strings). -/
def uaSafariVersion (ua : List Char) : Option String :=
  scanFirst
    (fun s =>
      if "Version/".data.isPrefixOf s then
        let after := s.drop 8
        let d := after.takeWhile Char.isDigit
        if d ≠ [] ∧ containsSub "Safari".data (after.drop d.length) then
          some ⟨d⟩
        else none
      else none)
    ua

structure UAParsed where
  browser : Option String := none
  browserVersion : Option ℕ := none
  os : Option String := none
  osVersion : Option String := none
  device : Option String := none
  isBot : Bool := false

structure UAInfo where
  raw : String
  parsed : Option UAParsed := none
  hash : Option String := none

namespace Fingerprinter

/-- `fnv1a(str)` with the default seed 0x811c9dc5, under JS number
semantics: `^=` works on ToInt32 values, the five shifts are 32-bit, their
sum is exact, and the result is ToUint32'd and printed in hex. -/
def fnv1a (s : String) : String :=
  let h : ℤ := s.data.foldl
    (fun h c =>
      let h1 := jsXor h ((c.toNat : ℤ))
      h1 + jsShl h1 1 + jsShl h1 4 + jsShl h1 7 + jsShl h1 8 + jsShl h1 24)
    (0x811c9dc5 : ℤ)
  toHex (toUint32 h)

def botPatterns : List String :=
  ["bot", "crawler", "spider", "scraper", "headless", "phantom", "selenium",
   "puppeteer", "playwright", "webdriver"]

/-- The browser table, in source order; first matching pattern wins. -/
def parseBrowser (ua : List Char) : Option (String × ℕ) :=
  match uaVersionDigits "Chrome/" ua with
  | some v => some ("Chrome", parseDigits v.data)
  | none =>
  match uaVersionDigits "Firefox/" ua with
  | some v => some ("Firefox", parseDigits v.data)
  | none =>
  match uaSafariVersion ua with
  | some v => some ("Safari", parseDigits v.data)
  | none =>
  match uaVersionDigits "Edg/" ua with
  | some v => some ("Edge", parseDigits v.data)
  | none => (uaVersionDigits "OPR/" ua).map (fun v => ("Opera", parseDigits v.data))

/-- `match[1].replace('_', '.')`: JS `replace` with a string pattern
replaces only the first occurrence. -/
def replaceFirstUnderscore : List Char → List Char
  | [] => []
  | c :: rest => if c = '_' then '.' :: rest else c :: replaceFirstUnderscore rest

/-- The OS table, in source order; Linux has no version capture. -/
def parseOS (ua : List Char) : Option (String × Option String) :=
  match uaVersionTwoPart "Windows NT " ['.'] ua with
  | some v => some ("Windows", some ⟨replaceFirstUnderscore v.data⟩)
  | none =>
  match uaVersionTwoPart "Mac OS X " ['.', '_'] ua with
  | some v => some ("macOS", some ⟨replaceFirstUnderscore v.data⟩)
  | none =>
  if containsSub "Linux".data ua then some ("Linux", none)
  else
    match uaVersionDigits "Android " ua with
    | some v => some ("Android", some ⟨replaceFirstUnderscore v.data⟩)
    | none =>
        (uaVersionDigits "iPhone OS " ua).map
          (fun v => ("iOS", some ⟨replaceFirstUnderscore v.data⟩))

/-- `parseUserAgent(ua)` (Fingerprinter.js lines 77-145). -/
def parseUserAgent (ua : String) : UAInfo :=
  if ua = "" then { raw := "" }
  else
    let chars := ua.data
    let lower := (jsToLower ua).data
    let isBot := botPatterns.any (fun p => containsSub p.data lower)
    let br := parseBrowser chars
    let os := parseOS chars
    let device :=
      if ["Mobile", "Android", "iPhone", "iPad"].any
          (fun p => containsSub p.data chars) then "mobile"
      else if ["Tablet", "iPad"].any (fun p => containsSub p.data chars) then "tablet"
      else "desktop"
    { raw := ua
      parsed := some
        { browser := br.map (fun x => x.1)
          browserVersion := br.map (fun x => x.2)
          os := os.map (fun x => x.1)
          osVersion := os.bind (fun x => x.2)
          device := some device
          isBot := isBot }
      hash := some (fnv1a ua) }

structure LangQ where
  code : String
  quality : ℚ

/-- JS `parseFloat` restricted to optionally signed decimal literals; other
shapes read as NaN, approximated here as quality 0 (the modelled callers
only ever reach the empty-header early return). -/
def parseFloatQ (s : String) : Option ℚ :=
  let core : List Char → Option ℚ := fun l =>
    let d1 := l.takeWhile Char.isDigit
    let rest := l.drop d1.length
    match rest with
    | '.' :: rest2 =>
        let d2 := rest2.takeWhile Char.isDigit
        if d1 = [] ∧ d2 = [] then none
        else some ((parseDigits d1 : ℚ) + (parseDigits d2 : ℚ) / (10 : ℚ) ^ d2.length)
    | _ => if d1 = [] then none else some (parseDigits d1 : ℚ)
  match s.data with
  | '-' :: rest => (core rest).map (fun q => -q)
  | '+' :: rest => core rest
  | l => core l

def insertDescQ (x : LangQ) : List LangQ → List LangQ
  | [] => [x]
  | y :: ys => if y.quality ≥ x.quality then y :: insertDescQ x ys else x :: y :: ys

/-- JS stable sort with comparator `(a, b) => b.quality - a.quality`. -/
def sortDescQ (l : List LangQ) : List LangQ :=
  l.foldl (fun acc x => insertDescQ x acc) []

/-- `normalizeAcceptLanguage(al)` (Fingerprinter.js lines 147-159). -/
def normalizeAcceptLanguage (al : String) : List String :=
  if al = "" then []
  else
    let languages := (jsSplit al ",").map (fun lang =>
      let parts := jsSplit (jsTrim lang) ";q="
      let code := (jsSplit (jsToLower (parts.headD "")) "-").headD ""
      let quality : ℚ :=
        match parts.get? 1 with
        | some q => (parseFloatQ q).getD 0
        | none => 1
      ({ code := code, quality := quality } : LangQ))
    (sortDescQ languages).map (fun l => l.code)

/-- `hashIP(ip)`: fnv1a of the first three dot-separated octets. -/
def hashIP (ip : String) : Option String :=
  if ip = "" then none
  else some (fnv1a (String.intercalate "." ((jsSplit ip ".").take 3)))

/-- The second alternative of the private ranges,
`/^172\.(1[6-9]|2[0-9]|3[0-1])\./`. -/
def private172 : List Char → Bool
  | '1' :: '7' :: '2' :: '.' :: d1 :: d2 :: '.' :: _ =>
      (d1 = '1' && (d2 = '6' || d2 = '7' || d2 = '8' || d2 = '9')) ||
      (d1 = '2' && d2.isDigit) ||
      (d1 = '3' && (d2 = '0' || d2 = '1'))
  | _ => false

/-- `classifyIP(ip)` (Fingerprinter.js lines 167-191). -/
def classifyIP (ip : String) : String :=
  if ip = "" then "unknown"
  else
    let d := ip.data
    if "10.".data.isPrefixOf d || private172 d ||
        "192.168.".data.isPrefixOf d || "127.".data.isPrefixOf d then "private"
    else if ["35.", "34.", "104.", "13.", "52.", "54."].any
        (fun p => p.data.isPrefixOf d) then "datacenter"
    else "residential"

def insertAscStr (x : String) : List String → List String
  | [] => [x]
  | y :: ys => if x < y then x :: y :: ys else y :: insertAscStr x ys

/-- JS `Array.prototype.sort()` on strings (code-unit lexicographic). -/
def sortStrings (l : List String) : List String :=
  l.foldl (fun acc x => insertAscStr x acc) []

/-- `hashPlugins` / `hashFonts`: null for a missing or empty list. -/
def hashStrList (l : List String) : Option String :=
  if l = [] then none
  else some (fnv1a (String.intercalate "|" (sortStrings l)))

structure FPComponents where
  userAgent : UAInfo
  acceptLanguage : List String
  acceptEncoding : String
  connection : String
  ip : Option String
  ipClass : String
  timezone : Option String
  timezoneOffset : Option ℚ
  screenResolution : Option String
  colorDepth : Option ℕ
  platform : Option String
  mobile : Bool
  plugins : Option String
  canvas : Option String
  webgl : Option String
  fonts : Option String
  audio : Option String
  doNotTrack : Option String
  cookiesEnabled : Option Bool
  localStorage : Option Bool
  sessionStorage : Option Bool
  cpuCores : Option ℚ
  deviceMemory : Option ℚ
  touchSupport : Option Bool
  connectionType : Option String
  downlink : Option ℚ

/-- `extractComponents(request)` (Fingerprinter.js lines 43-75). -/
def extractComponents (r : Request) : FPComponents :=
  let headers := r.headers
  let client := r.client.getD {}
  { userAgent := parseUserAgent ((headers.lookup "user-agent").getD "")
    acceptLanguage := normalizeAcceptLanguage ((headers.lookup "accept-language").getD "")
    acceptEncoding := (headers.lookup "accept-encoding").getD ""
    connection := (headers.lookup "connection").getD ""
    ip := hashIP (r.ip.getD "")
    ipClass := classifyIP (r.ip.getD "")
    timezone := truthyStr client.timezone
    timezoneOffset := truthyNum client.timezoneOffset
    screenResolution := truthyStr client.screenResolution
    colorDepth := truthyNat client.colorDepth
    platform := jsOrStr client.platform (headers.lookup "sec-ch-ua-platform")
    mobile := client.mobile.getD false || (headers.lookup "sec-ch-ua-mobile" == some "?1")
    plugins := hashStrList (client.plugins.getD [])
    canvas := truthyStr client.canvasHash
    webgl := truthyStr client.webglHash
    fonts := hashStrList (client.fonts.getD [])
    audio := truthyStr client.audioHash
    doNotTrack := jsOrRaw (truthyStr (headers.lookup "dnt")) client.doNotTrack
    cookiesEnabled := client.cookiesEnabled
    localStorage := client.localStorage
    sessionStorage := client.sessionStorage
    cpuCores := client.hardwareConcurrency
    deviceMemory := client.deviceMemory
    touchSupport := client.touchSupport
    connectionType := client.connectionType
    downlink := client.downlink }

/-- `computeFingerprint(components)`: join of the truthy significant
components. -/
def computeFingerprint (c : FPComponents) : String :=
  let sig : List (Option String) :=
    [c.userAgent.hash, c.ip, some (String.intercalate "," c.acceptLanguage),
     c.timezone, c.screenResolution, c.platform, c.canvas, c.webgl,
     c.plugins, c.fonts]
  fnv1a (String.intercalate "|" (sig.filterMap truthyStr))

structure FPHistEntry where
  fingerprint : String
  timestamp : ℕ

/-- The early `!userId` return carries only `stable`, `changes` and
`history`; the remaining fields exist only on the main path. -/
structure StabilityResult where
  stable : Bool
  changes : ℕ
  recentChanges : Option ℕ := none
  uniqueFingerprints : Option ℕ := none
  history : List (String × ℕ) := []

/-- `calculateStability(userId, fingerprint)` (Fingerprinter.js lines
229-258): counts, among the identity's previously stored samples, how many
differ from the current fingerprint (all of them, and among the last 10);
appends the current fingerprint, capping the history at 100; reports
`stable` when fewer than 3 of the last 10 previous samples differ. -/
def calculateStability (cache : JMap (List FPHistEntry)) (userId : Option String)
    (fingerprint : String) (now : ℕ) :
    StabilityResult × JMap (List FPHistEntry) :=
  match truthyStr userId with
  | none => ({ stable := true, changes := 0 }, cache)
  | some uid =>
      let key := "fp:" ++ uid
      let history := (cache.lookup key).getD []
      let changes := (history.filter (fun h => h.fingerprint ≠ fingerprint)).length
      let recentChanges :=
        ((lastN 10 history).filter (fun h => h.fingerprint ≠ fingerprint)).length
      let history := history ++ [{ fingerprint := fingerprint, timestamp := now }]
      let history := if history.length > 100 then lastN 100 history else history
      let cache := cache.set key history
      let uniqueFingerprints := (history.map (fun h => h.fingerprint)).dedup.length
      ({ stable := recentChanges < 3
         changes := changes
         recentChanges := some recentChanges
         uniqueFingerprints := some uniqueFingerprints
         history := (lastN 5 history).map (fun h => (h.fingerprint.take 8, h.timestamp)) },
       cache)

structure AnomalyResult where
  score : ℚ
  anomalies : List String

/-- `detectAnomalies(components)` (Fingerprinter.js lines 260-325). -/
def detectAnomalies (c : FPComponents) : AnomalyResult :=
  let checks : List (Bool × ℚ × String) :=
    [((c.userAgent.parsed.map (fun p => p.isBot)).getD false, 0.8, "bot_user_agent"),
     (c.userAgent.raw = "", 0.3, "missing_user_agent"),
     (c.ipClass = "datacenter", 0.4, "datacenter_ip"),
     ((match c.userAgent.parsed with
       | some p => p.browser == some "Chrome" &&
           (match p.browserVersion with | some v => decide (v < 70) | none => false)
       | none => false), 0.2, "outdated_browser"),
     (c.timezone = none ∧ c.screenResolution = none, 0.3, "missing_client_data"),
     (c.canvas = none ∧ c.webgl = none, 0.2, "no_canvas_webgl"),
     ((match c.screenResolution with
       | some res =>
           (match jsNumber? ((jsSplit res "x").headD "") with
            | some w => w > 3840 ∨ w < 320
            | none => false)
       | none => false), 0.15, "unusual_resolution"),
     ((match c.userAgent.parsed with
       | some p => p.device = some "mobile" ∧ c.touchSupport.getD false = false
       | none => false), 0.25, "mobile_no_touch"),
     ((match c.plugins with
       | some p => decide (p.length = 0) &&
           (match c.userAgent.parsed with
            | some pa => pa.browser == some "Chrome" && pa.os == some "Windows"
            | none => false)
       | none => false), 0.15, "no_plugins_chrome"),
     (c.cookiesEnabled = some false, 0.1, "cookies_disabled")]
  let score := (checks.filterMap (fun x => if x.1 then some x.2.1 else none)).sum
  { score := MathUtils.clamp score 0 1
    anomalies := checks.filterMap (fun x => if x.1 then some x.2.2 else none) }

/-- `calculateConfidence(components)`: the userAgent object, the
acceptLanguage array and the two header strings extracted by
`extractComponents` are never null, so their weights are always present. -/
def calculateConfidence (c : FPComponents) : ℚ :=
  let presentWeight : ℚ :=
    0.15 + 0.1 + 0.05 + 0.05
    + (if c.ip.isSome then 0.2 else 0)
    + (if c.timezone.isSome then 0.1 else 0)
    + (if c.screenResolution.isSome then 0.1 else 0)
    + (if c.colorDepth.isSome then 0.05 else 0)
    + (if c.platform.isSome then 0.05 else 0)
    + (if c.plugins.isSome then 0.05 else 0)
    + (if c.canvas.isSome then 0.05 else 0)
    + (if c.webgl.isSome then 0.05 else 0)
  let totalWeight : ℚ := 1
  let baseConfidence := presentWeight / totalWeight
  let qualityBonus : ℚ :=
    (if (truthyStr c.canvas).isSome then 0.05 else 0)
    + (if (truthyStr c.webgl).isSome then 0.05 else 0)
    + (if (truthyStr c.fonts).isSome then 0.03 else 0)
    + (if (truthyStr c.audio).isSome then 0.02 else 0)
  MathUtils.clamp (baseConfidence + qualityBonus) 0 1

structure BotResult where
  isBot : Bool
  score : ℚ

/-- `detectBot(components)` (Fingerprinter.js lines 349-384). The source
reads `components.webdriver`, a field `extractComponents` never sets, so
the webDriver signal is constantly false; `seleniumMarkers` is the literal
`false`. -/
def detectBot (c : FPComponents) : BotResult :=
  let userAgentBot := (c.userAgent.parsed.map (fun p => p.isBot)).getD false
  let noJavaScript := c.screenResolution = none ∧ c.timezone = none
  let phantomNavigator : Bool :=
    (match c.plugins with
     | some p => decide (p.length = 0)
     | none => false) &&
    (match c.userAgent.parsed with
     | some p => p.browser == some "Chrome"
     | none => false)
  let headlessChrome := containsSub "HeadlessChrome".data c.userAgent.raw.data
  let botScore : ℚ :=
    (if userAgentBot then 0.9 else 0)
    + (if noJavaScript then 0.7 else 0)
    + (if phantomNavigator then 0.6 else 0)
    + (if headlessChrome then 0.95 else 0)
    + (if c.ipClass = "datacenter" then 0.3 else 0)
  { isBot := botScore > 0.7
    score := MathUtils.clamp botScore 0 1 }

structure FPKnown where
  seen : ℕ
  blocked : ℕ

structure FPState where
  fingerprintCache : JMap (List FPHistEntry) := []
  knownFingerprints : JMap FPKnown := []
  suspiciousSignatures : List String := []

structure SuspiciousResult where
  suspicious : Bool
  reason : Option String := none

/-- `checkSuspicious(fingerprint, components)`. -/
def checkSuspicious (fps : FPState) (fingerprint : String)
    (c : FPComponents) : SuspiciousResult :=
  if fps.suspiciousSignatures.contains fingerprint then
    { suspicious := true, reason := some "known_bad_fingerprint" }
  else if (match fps.knownFingerprints.lookup fingerprint with
           | some r => decide (r.blocked > 3)
           | none => false) then
    { suspicious := true, reason := some "previously_blocked" }
  else if (detectAnomalies c).score > 0.7 then
    { suspicious := true, reason := some "high_anomaly_score" }
  else { suspicious := false }

structure FPResult where
  fingerprint : String
  components : FPComponents
  stability : StabilityResult
  anomalyScore : AnomalyResult
  confidence : ℚ
  isBot : BotResult
  isSuspicious : SuspiciousResult

/-- `generate(request)` (Fingerprinter.js lines 26-41). -/
def generate (fps : FPState) (r : Request) (now : ℕ) : FPResult × FPState :=
  let components := extractComponents r
  let fingerprint := computeFingerprint components
  let (stability, cache) :=
    calculateStability fps.fingerprintCache r.userId fingerprint now
  let fps := { fps with fingerprintCache := cache }
  ({ fingerprint := fingerprint
     components := components
     stability := stability
     anomalyScore := detectAnomalies components
     confidence := calculateConfidence components
     isBot := detectBot components
     isSuspicious := checkSuspicious fps fingerprint components }, fps)

end Fingerprinter

/-! BehaviorAnalyzer (src/src/core/BehaviorAnalyzer.js): its guard for
too-few samples (`minSamples` default 10, the engine's configuration) is
embedded; the full analysis path behind the guard computes entropies and
standard deviations (`Math.log2`, `Math.sqrt`), so it is abstracted as the
`BFull` parameter, together with its per-identity profile state of
abstract type `P`. -/

structure BehaviorFactor where
  type : String
  score : ℚ

structure BehaviorMetrics where
  anomalyScore : ℚ
  velocityScore : ℚ
  rhythmScore : ℚ
  diversityScore : ℚ
  automationScore : ℚ
  sessionScore : ℚ

/-- What `BehaviorAnalyzer.analyze` returns; the short-sample sentinel
carries no `metrics` field. -/
structure BehaviorResult where
  reliable : Bool
  riskScore : ℚ
  factors : List BehaviorFactor
  metrics : Option BehaviorMetrics := none

/-- The analysis path behind the guard (BehaviorAnalyzer.js lines 19-83),
abstracted: it may read and update the profile map. -/
def BFull (P : Type) : Type :=
  String → List Event → JMap P → BehaviorResult × JMap P

/-- `analyze(userId, events)` (BehaviorAnalyzer.js lines 14-17 and on):
fewer than `minSamples` events short-circuit to the
`{reliable: false, riskScore: 0.5, factors: []}` sentinel without touching
the profile. -/
def analyze {P : Type} (bf : BFull P) (userId : String) (events : List Event)
    (profiles : JMap P) : BehaviorResult × JMap P :=
  if events.length < 10 then
    ({ reliable := false, riskScore := 0.5, factors := [] }, profiles)
  else bf userId events profiles

/-- `clearProfile(userId)`. -/
def clearProfile {P : Type} (profiles : JMap P) (userId : String) : JMap P :=
  profiles.erase userId

/-! Reputation records and the store's heterogeneous values. -/

structure RepEntry where
  timestamp : ℕ
  riskScore : ℚ
  action : String

structure Reputation where
  score : ℚ
  history : List RepEntry
  firstSeen : ℕ
  totalRequests : ℕ
  blockedRequests : ℕ

/-- The values the orchestrator stores: event lists under `events:<id>`
keys and reputation records under `reputation:<id>` keys. -/
inductive StoreVal where
  | events : List Event → StoreVal
  | reputation : Reputation → StoreVal

/-- `MemoryStore.push(key, value, maxLength)` at the event-list type:
read (`get`), treat a missing value as `[]`, refuse a non-array value,
append, trim to the last `maxLength`, write back (`set` with the default
ttl). -/
def pushEvent (ms : MemoryStore StoreVal) (now : ℕ) (key : String)
    (e : Event) (maxLength : ℕ) : Bool × MemoryStore StoreVal :=
  let (got, ms) := ms.get now key
  match got with
  | some (.reputation _) => (false, ms)
  | got =>
      let arr := (match got with | some (.events l) => l | _ => []) ++ [e]
      let arr := if arr.length > maxLength then lastN maxLength arr else arr
      (true, ms.setD now key (.events arr))

/-! RiskEngine orchestrator (src/src/core/RiskEngine.js — the second
module of src/src/core/PatternDetector.js in this snapshot). Hooks default
to null and are never invoked; `Date.now()` is the single `now` of the
evaluation, so `metadata.evaluationTime` is 0. The source gathers the five
producers with `Promise.all`; only `checkRateLimit` suspends (awaiting
`getReputation`), and its continuation touches no state the later
producers read, so the sequential composition in source order below yields
the same results. -/

structure Weights where
  behavior : ℚ := 0.25
  patterns : ℚ := 0.25
  rateLimit : ℚ := 0.2
  fingerprint : ℚ := 0.15
  reputation : ℚ := 0.15

structure Thresholds where
  low : ℚ := 0.3
  medium : ℚ := 0.5
  high : ℚ := 0.7
  critical : ℚ := 0.9

/-- The component results `calculateRiskScore` and `determineAction`
receive; each may be absent, mirroring the source's optional chaining. -/
structure RiskComponents where
  behavior : Option BehaviorResult := none
  patterns : Option PatternResult := none
  rateLimit : Option CheckResult := none
  fingerprint : Option Fingerprinter.FPResult := none
  reputation : Option Reputation := none

/-- The weighted sum and total weight accumulated by `calculateRiskScore`
(PatternDetector.js lines 742-775): a present, reliable behavior result, a
present patterns result, a present rate-limit result (0 when allowed, else
`severity || 0.5`), a present fingerprint (the max of anomaly score, bot
score, and 0.7 when suspicious), and a present reputation. -/
def fusionParts (w : Weights) (c : RiskComponents) : ℚ × ℚ :=
  let acc : ℚ × ℚ := (0, 0)
  let acc :=
    match c.behavior with
    | some b =>
        if b.reliable then (acc.1 + b.riskScore * w.behavior, acc.2 + w.behavior)
        else acc
    | none => acc
  let acc :=
    match c.patterns with
    | some p => (acc.1 + p.riskScore * w.patterns, acc.2 + w.patterns)
    | none => acc
  let acc :=
    match c.rateLimit with
    | some r =>
        let rateLimitScore : ℚ :=
          if r.allowed then 0
          else
            match r.severity with
            | some s => if s = 0 then 0.5 else s
            | none => 0.5
        (acc.1 + rateLimitScore * w.rateLimit, acc.2 + w.rateLimit)
    | none => acc
  let acc :=
    match c.fingerprint with
    | some f =>
        let fpScore :=
          max (max f.anomalyScore.score f.isBot.score)
            (if f.isSuspicious.suspicious then (0.7 : ℚ) else 0)
        (acc.1 + fpScore * w.fingerprint, acc.2 + w.fingerprint)
    | none => acc
  match c.reputation with
  | some rep => (acc.1 + rep.score * w.reputation, acc.2 + w.reputation)
  | none => acc

/-- `calculateRiskScore(components)` (PatternDetector.js lines 741-794):
0 when no weight is present; otherwise the weighted mean, floored at 0.6
under a truthy attack type, at 0.7 under a detected bot, at 0.5 when the
rate-limit result is absent or not allowed; clamped to [0,1]. -/
def calculateRiskScore (w : Weights) (c : RiskComponents) : ℚ :=
  let parts := fusionParts w c
  if parts.2 = 0 then 0
  else
    let baseScore := parts.1 / parts.2
    let baseScore :=
      if (match c.patterns with
          | some p => p.attackType.isSome
          | none => false) then max baseScore 0.6 else baseScore
    let baseScore :=
      if (match c.fingerprint with
          | some f => f.isBot.isBot
          | none => false) then max baseScore 0.7 else baseScore
    let baseScore :=
      if !(match c.rateLimit with
           | some r => r.allowed
           | none => false) then max baseScore 0.5 else baseScore
    MathUtils.clamp baseScore 0 1

/-- `getRiskLevel(score)`. -/
def getRiskLevel (th : Thresholds) (score : ℚ) : String :=
  if score ≥ th.critical then "critical"
  else if score ≥ th.high then "high"
  else if score ≥ th.medium then "medium"
  else if score ≥ th.low then "low"
  else "minimal"

/-- The source key names, for reason strings. -/
def attackNameStr : AttackKind → String
  | .bruteForce => "bruteForce"
  | .enumeration => "enumeration"
  | .scraping => "scraping"
  | .cardTesting => "cardTesting"
  | .accountTakeover => "accountTakeover"
  | .apiAbuse => "apiAbuse"

/-- `getBlockReason(components)`. -/
def getBlockReason (c : RiskComponents) : String :=
  match (match c.patterns with | some p => p.attackType | none => none) with
  | some k => "detected_" ++ attackNameStr k
  | none =>
      if (match c.fingerprint with | some f => f.isBot.isBot | none => false) then
        "bot_detected"
      else if !(match c.rateLimit with | some r => r.allowed | none => false) then
        "rate_limit_exceeded"
      else "high_risk_score"

/-- `selectChallenge(components)`; the behavior sentinel has no metrics, so
its automation score reads as undefined and the comparison is false. -/
def selectChallenge (c : RiskComponents) : String :=
  if (match c.fingerprint with
      | some f => decide (f.isBot.score > 0.5)
      | none => false) then "captcha"
  else if (match c.behavior with
           | some b =>
               match b.metrics with
               | some m => decide (m.automationScore > 0.5)
               | none => false
           | none => false) then "proof_of_work"
  else "javascript_challenge"

structure ActionRec where
  type : String
  reason : String
  duration : Option ℕ := none
  factor : Option ℚ := none
  challengeType : Option String := none

/-- `determineAction(riskScore, components)` (PatternDetector.js lines
804-841). -/
def determineAction (th : Thresholds) (riskScore : ℚ) (c : RiskComponents) :
    ActionRec :=
  if riskScore ≥ th.critical then
    { type := "ban", duration := some 86400000, reason := "critical_risk_level" }
  else if riskScore ≥ th.high then
    { type := "block", duration := some 3600000, reason := getBlockReason c }
  else if riskScore ≥ th.medium then
    { type := "throttle", factor := some 0.5, reason := "elevated_risk" }
  else if riskScore ≥ th.low then
    { type := "challenge", challengeType := some (selectChallenge c),
      reason := "suspicious_activity" }
  else { type := "allow", reason := "low_risk" }

/-- The per-signal breakdown embedded in a decision. -/
structure ComponentsOut where
  behaviorScore : ℚ
  behaviorFactors : List BehaviorFactor
  patternsScore : ℚ
  patternsAttackType : Option AttackKind
  rateLimitAllowed : Bool
  rateLimitRemaining : ℤ
  fingerprintScore : ℚ
  fingerprintIsBot : Bool
  fingerprint : String
  reputationScore : ℚ
  reputationHistory : List RepEntry

structure Decision where
  userId : String
  sessionId : String
  riskScore : ℚ
  riskLevel : String
  action : ActionRec
  allowed : Bool
  components : ComponentsOut
  evaluationTime : ℕ
  timestamp : ℕ

/-- `RiskEngine.hash(str)`: djb2 under JS number semantics (the shift is
32-bit, the additions exact; ToUint32 then hex). -/
def hashDjb2 (s : String) : String :=
  let h : ℤ := s.data.foldl (fun h c => jsShl h 5 + h + (c.toNat : ℤ)) 5381
  toHex (toUint32 h)

/-- `extractUserId(request)`. -/
def extractUserId (r : Request) : String :=
  (jsOrRaw (truthyStr r.userId)
    (jsOrRaw (truthyStr r.userObjectId)
      (jsOrRaw (truthyStr (r.headers.lookup "x-user-id"))
        (truthyStr r.ip)))).getD "anonymous"

/-- `generateSessionId(request)`: djb2 of the truthy parts of
`[ip, user-agent, now.toString(36)]` joined by `|`. -/
def generateSessionId (r : Request) (now : ℕ) : String :=
  let comps :=
    [r.ip, r.headers.lookup "user-agent", some (toString36 now)].filterMap truthyStr
  hashDjb2 (String.intercalate "|" comps)

/-- `recordEvent`'s event record. -/
def mkEvent (r : Request) (now : ℕ) : Event :=
  { timestamp := now
    action := jsOrRaw (truthyStr r.action) r.method
    endpoint := jsOrRaw (truthyStr r.endpoint) (jsOrRaw (truthyStr r.path) r.url)
    ip := r.ip
    userAgent := r.headers.lookup "user-agent"
    responseTime := r.responseTime
    payloadSize := match truthyStr r.body with | some s => s.length | none => 0
    statusCode := r.statusCode
    method := r.method }

/-- `this.store.get(eventKey) || []`, which in the reachable states always
sees an event list under an `events:` key. -/
def eventsOf : Option StoreVal → List Event
  | some (.events l) => l
  | _ => []

def defaultReputation (now : ℕ) : Reputation :=
  { score := 0, history := [], firstSeen := now, totalRequests := 0,
    blockedRequests := 0 }

/-- `getReputation(userId)` (PatternDetector.js lines 724-739): a missing
record is substituted by the zero-score default. -/
def getReputation (store : MemoryStore StoreVal) (now : ℕ) (userId : String) :
    Reputation × MemoryStore StoreVal :=
  let (got, store) := store.get now ("reputation:" ++ userId)
  match got with
  | some (.reputation rep) => (rep, store)
  | _ => (defaultReputation now, store)

/-- `updateReputation(userId, decision)` (PatternDetector.js lines
882-918). -/
def updateReputation (store : MemoryStore StoreVal) (now : ℕ) (userId : String)
    (decision : Decision) : MemoryStore StoreVal :=
  let (got, store) := store.get now ("reputation:" ++ userId)
  let rep :=
    match got with
    | some (.reputation rp) => rp
    | _ => defaultReputation now
  let rep := { rep with totalRequests := rep.totalRequests + 1 }
  let rep :=
    if !decision.allowed then
      { rep with blockedRequests := rep.blockedRequests + 1 }
    else rep
  let history := rep.history ++
    [{ timestamp := now, riskScore := decision.riskScore,
       action := decision.action.type }]
  let history := if history.length > 100 then lastN 100 history else history
  let recentScores := (lastN 20 history).map (fun h => h.riskScore)
  let decayedScore := MathUtils.exponentialMovingAverage recentScores 0.3
  let blockRatio := (rep.blockedRequests : ℚ) / (rep.totalRequests : ℚ)
  let rep :=
    { rep with
      history := history
      score := MathUtils.clamp (decayedScore * 0.7 + blockRatio * 0.3) 0 1 }
  store.setD now ("reputation:" ++ userId) (.reputation rep)

structure EngineState (P : Type) where
  store : MemoryStore StoreVal
  profiles : JMap P := []
  rl : RateLimiter
  fp : Fingerprinter.FPState := {}
  totalEvaluations : ℕ := 0
  blocked : ℕ := 0
  challenged : ℕ := 0
  allowedCount : ℕ := 0
  avgRiskScore : ℚ := 0

/-- A freshly constructed engine: a 50000-capacity store with 1h ttl and a
rate limiter built from the given configuration. -/
def mkEngine (P : Type) (rl : RateLimiter := {}) : EngineState P :=
  { store := MemoryStore.empty StoreVal 50000 3600000, rl := rl }

/-- `evaluate(request)` (PatternDetector.js lines 579-656). -/
def evaluate {P : Type} (bf : BFull P) (pdOther : PDOther) (w : Weights)
    (th : Thresholds) (s : EngineState P) (r : Request) (now : ℕ) :
    Decision × EngineState P :=
  let userId := extractUserId r
  let sessionId := (truthyStr r.sessionId).getD (generateSessionId r now)
  let (_, store) := pushEvent s.store now ("events:" ++ userId) (mkEvent r now) 1000
  let (ev1, store) := store.get now ("events:" ++ userId)
  let (behaviorResult, profiles) := analyze bf userId (eventsOf ev1) s.profiles
  let (ev2, store) := store.get now ("events:" ++ userId)
  let patternResult := detect pdOther (eventsOf ev2)
  let (rep1, store) := getReputation store now userId
  let identifier :=
    userId ++ ":" ++
      ((jsOrRaw (truthyStr r.endpoint) (truthyStr r.path)).getD "default")
  let (rateLimitResult, rl) := s.rl.check identifier now { riskScore := some rep1.score }
  let (fingerprintResult, fp) := Fingerprinter.generate s.fp r now
  let (reputationResult, store) := getReputation store now userId
  let comps : RiskComponents :=
    { behavior := some behaviorResult
      patterns := some patternResult
      rateLimit := some rateLimitResult
      fingerprint := some fingerprintResult
      reputation := some reputationResult }
  let riskScore := calculateRiskScore w comps
  let action := determineAction th riskScore { comps with reputation := none }
  let decision : Decision :=
    { userId := userId
      sessionId := sessionId
      riskScore := riskScore
      riskLevel := getRiskLevel th riskScore
      action := action
      allowed := action.type == "allow" || action.type == "challenge"
      components :=
        { behaviorScore := behaviorResult.riskScore
          behaviorFactors := behaviorResult.factors
          patternsScore := patternResult.riskScore
          patternsAttackType := patternResult.attackType
          rateLimitAllowed := rateLimitResult.allowed
          rateLimitRemaining := rateLimitResult.remaining
          fingerprintScore := fingerprintResult.anomalyScore.score
          fingerprintIsBot := fingerprintResult.isBot.isBot
          fingerprint := fingerprintResult.fingerprint
          reputationScore := reputationResult.score
          reputationHistory := reputationResult.history }
      evaluationTime := 0
      timestamp := now }
  let totalEvaluations := s.totalEvaluations + 1
  let isBlocked := action.type == "block" || action.type == "ban"
  let blocked := s.blocked + (if isBlocked then 1 else 0)
  let challenged := s.challenged + (if action.type == "challenge" then 1 else 0)
  let allowedCount :=
    s.allowedCount + (if !isBlocked && action.type != "challenge" then 1 else 0)
  let avgRiskScore :=
    (((totalEvaluations : ℚ) - 1) * s.avgRiskScore + riskScore) /
      (totalEvaluations : ℚ)
  let store := updateReputation store now userId decision
  (decision,
   { store := store
     profiles := profiles
     rl := rl
     fp := fp
     totalEvaluations := totalEvaluations
     blocked := blocked
     challenged := challenged
     allowedCount := allowedCount
     avgRiskScore := avgRiskScore })

/-- `resetUser(userId)` (PatternDetector.js lines 995-1000): deletes the
identity's events and reputation from the store, clears its behavior
profile, and calls `rateLimiter.reset(userId)` — keyed by the bare
identity, not by the `userId:endpoint` identifiers `checkRateLimit`
uses. -/
def resetUser {P : Type} (s : EngineState P) (userId : String) :
    EngineState P :=
  { s with
    store := (s.store.del ("events:" ++ userId)).del ("reputation:" ++ userId)
    profiles := clearProfile s.profiles userId
    rl := s.rl.reset userId }

/-! Artifacts the theorems below evaluate: stand-ins for the abstracted
analysis paths, the two concrete scenarios, and spec-side measures. -/

/-- A stand-in for the abstracted full behavior path: it returns the
sentinel and leaves the profiles unchanged. The trace theorems using it
either never reach the full path (every `analyze` call sees fewer than
`minSamples` events) or state conclusions that part 2 of the brute-force
theorem proves independent of the behavior and pattern abstractions. -/
def bfUnused (P : Type) : BFull P :=
  fun _ _ profiles => ({ reliable := false, riskScore := 0.5, factors := [] }, profiles)

/-- A stand-in for the four abstracted pattern sub-detectors: no extra
patterns. -/
def pdUnused : PDOther := fun _ => ([], [], [], [])

/-- The reset-scenario request: identity `u` hitting `/api/login` with no
headers or client data. -/
def c1Request : Request := { userId := some "u", endpoint := some "/api/login" }

/-- A freshly constructed engine configured with `defaultLimit = 1`. -/
def c1Engine : EngineState Unit := mkEngine Unit { defaultLimit := 1 }

/-- The brute-force scenario request of the spec: `action=login`,
`endpoint=/api/login`, `ip=1.2.3.4`, `ua="Mozilla/5.0"`. -/
def c2Request : Request :=
  { action := some "login", endpoint := some "/api/login", ip := some "1.2.3.4",
    headers := [("user-agent", "Mozilla/5.0")] }

/-- 30 requests over 15 seconds: one every 500 ms. -/
def c2Time (k : ℕ) : ℕ := 500 * k

/-- The event records `evaluate` stores for the first `k` requests of the
brute-force stream. -/
def c2Events (k : ℕ) : List Event :=
  (List.range k).map (fun i => mkEvent c2Request (c2Time i))

/-- The engine state after the first `n` brute-force requests, paired with
the decisions produced so far, against a fresh default engine. -/
def c2Trace : ℕ → EngineState Unit × List Decision
  | 0 => (mkEngine Unit {}, [])
  | n + 1 =>
      let (s, ds) := c2Trace n
      let (d, s') := evaluate (bfUnused Unit) pdUnused {} {} s c2Request (c2Time n)
      (s', ds ++ [d])

/-- The event list `evaluate` hands to the pattern detector: the stored
list after `recordEvent`'s push, re-read the way `analyzePatterns` does
(after `analyzeBehavior`'s read). -/
def eventsSeenByDetect (store : MemoryStore StoreVal) (r : Request) (now : ℕ) :
    List Event :=
  let key := "events:" ++ extractUserId r
  let store := (pushEvent store now key (mkEvent r now) 1000).2
  let (_, store) := store.get now key
  eventsOf (store.get now key).1

/-- The measure claim C7 describes: the number of distinct fingerprint
values among the last 10 samples of a history. -/
def distinctRecentFingerprints (history : List Fingerprinter.FPHistEntry) : ℕ :=
  ((lastN 10 history).map (fun h => h.fingerprint)).dedup.length

/-- The penalty of every identity lies in [1, 10], an absent entry reading
as 1. -/
def PenaltyInv (rl : RateLimiter) : Prop :=
  ∀ identifier, 1 ≤ rl.effPenalty identifier ∧ rl.effPenalty identifier ≤ 10

/-! Theorems. -/

/-- C1 (code bug): `resetUser("u")` does not restore fresh-engine behavior.
`checkRateLimit` keys the rate limiter by `u:/api/login` while `resetUser`
resets the key `u`, so the bucket `u:/api/login` survives the reset. On an
engine configured with `defaultLimit = 1`: after one evaluation of the
request and a `resetUser`, re-evaluating the same request is rate-limit
denied and throttled with score 0.5, while a freshly constructed engine
with the same configuration allows it with score 0.16 — contradicting the
claim that the post-reset decision matches the fresh engine's. The stand-in
analysis paths are never reached: every behavior call sees 1 < 10 events
and every pattern call sees 1 < 2 events. -/
theorem resetUser_leaves_stale_rate_limit_state :
    (((resetUser (evaluate (bfUnused Unit) pdUnused {} {} c1Engine c1Request 1000).2
        "u").rl.buckets.lookup "u:/api/login").isSome = true) ∧
    ((evaluate (bfUnused Unit) pdUnused {} {}
        (resetUser (evaluate (bfUnused Unit) pdUnused {} {} c1Engine c1Request 1000).2 "u")
        c1Request 2000).1.components.rateLimitAllowed = false) ∧
    ((evaluate (bfUnused Unit) pdUnused {} {}
        (resetUser (evaluate (bfUnused Unit) pdUnused {} {} c1Engine c1Request 1000).2 "u")
        c1Request 2000).1.riskScore = 1/2) ∧
    ((evaluate (bfUnused Unit) pdUnused {} {}
        (resetUser (evaluate (bfUnused Unit) pdUnused {} {} c1Engine c1Request 1000).2 "u")
        c1Request 2000).1.action.type = "throttle") ∧
    ((evaluate (bfUnused Unit) pdUnused {} {} c1Engine c1Request 2000).1.components.rateLimitAllowed
      = true) ∧
    ((evaluate (bfUnused Unit) pdUnused {} {} c1Engine c1Request 2000).1.riskScore = 4/25) ∧
    ((evaluate (bfUnused Unit) pdUnused {} {} c1Engine c1Request 2000).1.action.type = "allow") :=
  ⟨rfl, rfl, rfl, rfl, rfl, rfl, rfl⟩

/-- C2 (code bug): the brute-force scenario never produces
`attackType = bruteForce`. `detectKnownAttacks` matches its fully anchored
patterns against the `'|'`-join of the actions, which no stream of two or
more events can satisfy, so the attack type is none at every length up to
30 for any values of the abstracted sub-detectors (part 1); the attack type
of any evaluation is exactly the detector's output on the stored events,
independent of the behavior abstraction (part 2); and in the full 30-step
engine run every decision carries `attackType = none`, so no evaluation
before the 30th (or at all) satisfies the claimed conjunction (part 3). -/
theorem bruteForce_never_detected_in_scenario :
    (∀ (pd : PDOther) (k : ℕ), k ≤ 30 → (detect pd (c2Events k)).attackType = none) ∧
    (∀ (P : Type) (bf : BFull P) (pd : PDOther) (w : Weights) (th : Thresholds)
        (s : EngineState P) (r : Request) (now : ℕ),
        (evaluate bf pd w th s r now).1.components.patternsAttackType =
          (detect pd (eventsSeenByDetect s.store r now)).attackType) ∧
    ((c2Trace 30).2.length = 30 ∧
      ∀ d ∈ (c2Trace 30).2, d.components.patternsAttackType = none) := by
  refine ⟨?_, ?_, ?_, ?_⟩
  · intro pd k hk
    have hlen : (c2Events k).length = k := by
      simp [c2Events]
    rcases Nat.lt_or_ge k 2 with h | h
    · simp [detect, hlen, h]
    · have hgate : ∀ k : ℕ, k ≤ 30 →
          identifyPrimaryAttack (detectKnownAttacks (c2Events k)) = none := by decide
      simp only [detect, hlen]
      rw [if_neg (by omega)]
      exact hgate k hk
  · intro P bf pd w th s r now
    rfl
  · rfl
  · decide

/-- C9 (confirmed): a missing reputation record is substituted by the
zero-score default, so the reputation component is never missing:
`evaluate` always fuses a components record in which every producer slot,
reputation included, is `some`; with an unreliable behavior result the
fused total weight under the default weights is exactly
0.25 + 0.2 + 0.15 + 0.15 = 3/4; and on the first-ever request of a fresh
engine the decision indeed carries reputationScore 0 and the behavior
sentinel (score 0.5, no factors), so the denominator is 3/4, not zero. -/
theorem reputation_default_and_weight :
    (∀ (store : MemoryStore StoreVal) (now : ℕ) (userId : String),
      store.store.lookup ("reputation:" ++ userId) = none →
      (getReputation store now userId).1 = defaultReputation now ∧
      (defaultReputation now).score = 0) ∧
    (∀ (P : Type) (bf : BFull P) (pd : PDOther) (w : Weights) (th : Thresholds)
        (s : EngineState P) (r : Request) (now : ℕ),
      ∃ b p rlres f rep,
        (evaluate bf pd w th s r now).1.riskScore
          = calculateRiskScore w
              { behavior := some b
                patterns := some p
                rateLimit := some rlres
                fingerprint := some f
                reputation := some rep }) ∧
    (∀ (b : BehaviorResult) (p : PatternResult) (rlres : CheckResult)
        (f : Fingerprinter.FPResult) (rep : Reputation),
      b.reliable = false →
      (fusionParts {}
        { behavior := some b
          patterns := some p
          rateLimit := some rlres
          fingerprint := some f
          reputation := some rep }).2 = 3/4) ∧
    ((evaluate (bfUnused Unit) pdUnused {} {} (mkEngine Unit {})
        c2Request 0).1.components.reputationScore = 0 ∧
     (evaluate (bfUnused Unit) pdUnused {} {} (mkEngine Unit {})
        c2Request 0).1.components.behaviorScore = 1/2 ∧
     (evaluate (bfUnused Unit) pdUnused {} {} (mkEngine Unit {})
        c2Request 0).1.components.behaviorFactors = []) := by
  refine ⟨?_, ?_, ?_, ?_, ?_, ?_⟩
  · intro store now userId h
    unfold getReputation MemoryStore.get
    simp only [h]
    exact ⟨trivial, rfl⟩
  · intro P bf pd w th s r now
    exact ⟨_, _, _, _, _, rfl⟩
  · intro b p rlres f rep hrel
    simp only [fusionParts, hrel]
    norm_num
  · rfl
  · rfl
  · rfl

attribute [local irreducible] Rat.add Rat.mul Rat.sub Rat.inv Rat.ofScientific

/-- Lower bounds on the fused total weight under the default weights: it is
nonnegative, and each present component contributes its weight. -/
theorem fusionParts_weight_bounds (c : RiskComponents) :
    0 ≤ (fusionParts {} c).2 ∧
    (c.patterns.isSome → 1/4 ≤ (fusionParts {} c).2) ∧
    (c.fingerprint.isSome → 3/20 ≤ (fusionParts {} c).2) ∧
    (c.rateLimit.isSome → 1/5 ≤ (fusionParts {} c).2) := by
  obtain ⟨b, p, r, f, rep⟩ := c
  cases b <;> cases p <;> cases r <;> cases f <;> cases rep <;>
    simp only [fusionParts] <;> (try split_ifs) <;>
    exact ⟨by norm_num, fun h => by simp at h <;> norm_num,
      fun h => by simp at h <;> norm_num, fun h => by simp at h <;> norm_num⟩

/-- Any quantity that is at most 1 and below the pre-clamp score bounds the
clamped score. -/
theorem le_clamp01 (x bound : ℚ) (h1 : bound ≤ x) (h2 : bound ≤ 1) :
    bound ≤ MathUtils.clamp x 0 1 :=
  le_min (le_trans h1 (le_max_left x 0)) h2

/-- C3 (confirmed): under the engine's default weights, the fused score is
floored at 0.6 when a truthy attack type is present, at 0.7 when the
fingerprint reports a bot, at 0.5 when a rate-limit result is present and
not allowed, and it always lies in [0, 1] (the early return for total
weight zero returns 0, and each floor hypothesis forces a present component
whose default weight is positive). -/
theorem calculateRiskScore_floors_and_range (c : RiskComponents) :
    ((match c.patterns with
      | some p => p.attackType.isSome
      | none => false) = true → 3/5 ≤ calculateRiskScore {} c) ∧
    ((match c.fingerprint with
      | some f => f.isBot.isBot
      | none => false) = true → 7/10 ≤ calculateRiskScore {} c) ∧
    (∀ r, c.rateLimit = some r → r.allowed = false → 1/2 ≤ calculateRiskScore {} c) ∧
    0 ≤ calculateRiskScore {} c ∧ calculateRiskScore {} c ≤ 1 := by
  obtain ⟨h0, hp, hf, hr⟩ := fusionParts_weight_bounds c
  refine ⟨?_, ?_, ?_, ?_⟩
  · intro hat
    have hps : c.patterns.isSome := by
      cases hpp : c.patterns <;> simp [hpp] at hat ⊢
    have htw : ¬((fusionParts {} c).2 = 0) := by
      intro h
      have := hp hps
      rw [h] at this
      norm_num at this
    unfold calculateRiskScore
    simp only [htw, if_false, ite_false]
    repeat' split
    all_goals
      first
        | exact absurd hat (by assumption)
        | (refine le_clamp01 _ _ ?_ (by norm_num)
           simp only [le_max_iff]
           norm_num)
  · intro hbot
    have hfs : c.fingerprint.isSome := by
      cases hff : c.fingerprint <;> simp [hff] at hbot ⊢
    have htw : ¬((fusionParts {} c).2 = 0) := by
      intro h
      have := hf hfs
      rw [h] at this
      norm_num at this
    unfold calculateRiskScore
    simp only [htw, if_false, ite_false]
    repeat' split
    all_goals
      first
        | exact absurd hbot (by assumption)
        | (refine le_clamp01 _ _ ?_ (by norm_num)
           simp only [le_max_iff]
           norm_num)
  · intro r hrr hall
    have hrs : c.rateLimit.isSome := by
      rw [hrr]
      rfl
    have htw : ¬((fusionParts {} c).2 = 0) := by
      intro h
      have := hr hrs
      rw [h] at this
      norm_num at this
    have hcond : (!match c.rateLimit with
        | some rr => rr.allowed
        | none => false) = true := by
      rw [hrr]
      simp [hall]
    unfold calculateRiskScore
    simp only [htw, if_false, ite_false]
    repeat' split
    all_goals
      first
        | exact absurd hcond (by assumption)
        | (refine le_clamp01 _ _ ?_ (by norm_num)
           simp only [le_max_iff]
           norm_num)
  · by_cases htw : (fusionParts {} c).2 = 0
    · unfold calculateRiskScore
      rw [if_pos htw]
      norm_num
    · unfold calculateRiskScore
      simp only [htw, if_false, ite_false]
      constructor
      · exact le_min (le_max_right _ _) (by norm_num)
      · exact min_le_right _ _

/-- C6 counterexample: the expiry comparison in `MemoryStore.get`/`has` is
`Date.now() > expiration`, strict. Set at time 100 with ttl 50 gives
expiresAt = 150; an access at exactly time 150 (so expiresAt ≤ now) still
returns the value and reports the key as present, contradicting the spec
sentence that an entry with expiresAt ≤ now must not be returned. -/
theorem memoryStore_boundary_access_returns_value :
    (((MemoryStore.empty ℕ).set 100 "k" 7 50).expirations.lookup "k" = some 150) ∧
    ((((MemoryStore.empty ℕ).set 100 "k" 7 50).get 150 "k").1 = some 7) ∧
    ((((MemoryStore.empty ℕ).set 100 "k" 7 50).hasKey 150 "k").1 = true) :=
  ⟨rfl, rfl, rfl⟩

/-- C6 (corrected): expiry at access time is strict. For every entry whose
stored (truthy) expiration lies strictly in the past (expiresAt < now, not
expiresAt ≤ now as the spec says), `get` returns null and deletes the
entry, and `has` returns false and deletes the entry. -/
theorem memoryStore_expired_access_strict {α : Type} (ms : MemoryStore α)
    (now : ℕ) (key : String) (entry : StoreEntry α) (e : ℕ)
    (hs : ms.store.lookup key = some entry)
    (he : ms.expirations.lookup key = some e)
    (h0 : e ≠ 0) (hlt : e < now) :
    (ms.get now key).1 = none ∧
    (ms.get now key).2.store.lookup key = none ∧
    (ms.hasKey now key).1 = false ∧
    (ms.hasKey now key).2.store.lookup key = none := by
  have hc : e ≠ 0 ∧ now > e := ⟨h0, hlt⟩
  unfold MemoryStore.get MemoryStore.hasKey
  simp only [hs, he, if_pos hc, MemoryStore.del]
  refine ⟨?_, ?_, ?_, ?_⟩ <;>
    first
      | trivial
      | exact JMap.lookup_erase_self _ _

/-- Witness for the corrected C6 theorem at a concrete store: set at time
100 with ttl 50, accessed at time 151. -/
theorem memoryStore_expired_access_strict_witness :
    ((((MemoryStore.empty ℕ).set 100 "k" 7 50).get 151 "k").1 = none ∧
     (((MemoryStore.empty ℕ).set 100 "k" 7 50).get 151 "k").2.store.lookup "k" = none ∧
     (((MemoryStore.empty ℕ).set 100 "k" 7 50).hasKey 151 "k").1 = false ∧
     (((MemoryStore.empty ℕ).set 100 "k" 7 50).hasKey 151 "k").2.store.lookup "k" = none) :=
  memoryStore_expired_access_strict _ 151 "k"
    { value := 7, createdAt := 100, accessedAt := 100, accessCount := 0 } 150
    rfl rfl (by decide) (by decide)

/-- The stored history after append-and-cap ends with the appended entry. -/
theorem getLast_cap_concat {α : Type} (l : List α) (a : α) :
    (if (l ++ [a]).length > 100 then lastN 100 (l ++ [a]) else l ++ [a]).getLast?
      = some a := by
  split_ifs with h
  · unfold lastN
    rw [List.drop_append_eq_append_drop]
    have hk : (l ++ [a]).length - 100 ≤ l.length := by
      simp [List.length_append]
    rw [Nat.sub_eq_zero_of_le hk]
    simp only [List.drop_zero]
    rw [List.getLast?_concat]
  · rw [List.getLast?_concat]

/-- C7 counterexample: `calculateStability` decides `stable` from the count
of stored samples that DIFFER from the current fingerprint, not from the
number of distinct values. With three stored samples "B" and current
fingerprint "A" there is 1 distinct prior value (2 counting the appended
current one), yet the code reports stable = false because all 3 recent
samples differ from "A". -/
theorem calculateStability_changes_not_distinct :
    (Fingerprinter.calculateStability
        [("fp:u", [⟨"B", 1⟩, ⟨"B", 2⟩, ⟨"B", 3⟩])] (some "u") "A" 10).1.stable
      = false ∧
    distinctRecentFingerprints [⟨"B", 1⟩, ⟨"B", 2⟩, ⟨"B", 3⟩] = 1 ∧
    distinctRecentFingerprints
      [⟨"B", 1⟩, ⟨"B", 2⟩, ⟨"B", 3⟩, ⟨"A", 10⟩] = 2 := ⟨rfl, rfl, rfl⟩

/-- C7 (corrected): for a truthy userId, `calculateStability` appends the
current fingerprint to the identity's history capped at 100 entries (the
stored history stays within 100 entries and ends with the current sample),
and reports stable = true exactly when fewer than 3 of the last 10
PREVIOUSLY STORED samples differ from the current fingerprint — a count of
changed samples, not of distinct values. -/
theorem calculateStability_append_cap_recent_changes
    (cache : JMap (List Fingerprinter.FPHistEntry))
    (uid fingerprint : String) (now : ℕ) (huid : uid ≠ "") :
    ((Fingerprinter.calculateStability cache (some uid) fingerprint now).1.stable = true ↔
      ((((cache.lookup ("fp:" ++ uid)).getD []).drop
          (((cache.lookup ("fp:" ++ uid)).getD []).length - 10)).countP
          (fun h => decide (h.fingerprint ≠ fingerprint)) < 3)) ∧
    (((cache.lookup ("fp:" ++ uid)).getD []).length ≤ 100 →
      ((((Fingerprinter.calculateStability cache (some uid) fingerprint now).2.lookup
          ("fp:" ++ uid)).getD []).length ≤ 100)) ∧
    ((((Fingerprinter.calculateStability cache (some uid) fingerprint now).2.lookup
        ("fp:" ++ uid)).getD []).getLast? =
      some { fingerprint := fingerprint, timestamp := now }) := by
  have ht : truthyStr (some uid) = some uid := by simp [truthyStr, huid]
  simp only [Fingerprinter.calculateStability, ht, JMap.lookup_set_self, Option.getD_some]
  refine ⟨?_, ?_, ?_⟩
  · simp [lastN, List.countP_eq_length_filter]
  · intro hold
    split_ifs with h
    · simp [lastN]
      omega
    · simp at h ⊢
      omega
  · exact getLast_cap_concat _ _

/-- Witness for the corrected C7 theorem: one stored sample "B", current
fingerprint "A" at time 5. -/
theorem calculateStability_append_cap_recent_changes_witness :
    ((Fingerprinter.calculateStability [("fp:u", [⟨"B", 1⟩])] (some "u") "A" 5).1.stable = true ↔
      (((((([("fp:u", [⟨"B", 1⟩])] : JMap (List Fingerprinter.FPHistEntry)).lookup
            ("fp:" ++ "u")).getD []).drop
          (((([("fp:u", [⟨"B", 1⟩])] : JMap (List Fingerprinter.FPHistEntry)).lookup
            ("fp:" ++ "u")).getD []).length - 10)).countP
          (fun h => decide (h.fingerprint ≠ "A"))) < 3)) ∧
    (((([("fp:u", [⟨"B", 1⟩])] : JMap (List Fingerprinter.FPHistEntry)).lookup
        ("fp:" ++ "u")).getD []).length ≤ 100 →
      ((((Fingerprinter.calculateStability [("fp:u", [⟨"B", 1⟩])] (some "u") "A" 5).2.lookup
          ("fp:" ++ "u")).getD []).length ≤ 100)) ∧
    ((((Fingerprinter.calculateStability [("fp:u", [⟨"B", 1⟩])] (some "u") "A" 5).2.lookup
        ("fp:" ++ "u")).getD []).getLast? =
      some { fingerprint := "A", timestamp := 5 }) :=
  calculateStability_append_cap_recent_changes [("fp:u", [⟨"B", 1⟩])] "u" "A" 5 (by decide)

/-- C8 (confirmed): with fewer than minSamples (10) events the behavior
analyzer returns the `{reliable: false, riskScore: 0.5, factors: []}`
sentinel and leaves the profile store untouched (it is a total function, so
no exceptional condition propagates), and the fuser treats an unreliable
behavior component exactly as an absent one: neither its weight nor its
numerator enters the weighted mean. -/
theorem behavior_sentinel_and_fusion_drop :
    (∀ (P : Type) (bf : BFull P) (userId : String) (events : List Event)
        (profiles : JMap P), events.length < 10 →
      analyze bf userId events profiles =
        ({ reliable := false, riskScore := 0.5, factors := [] }, profiles)) ∧
    (∀ (w : Weights) (c : RiskComponents) (b : BehaviorResult),
      c.behavior = some b → b.reliable = false →
      fusionParts w c = fusionParts w { c with behavior := none }) := by
  constructor
  · intro P bf userId events profiles h
    simp [analyze, h]
  · intro w c b hb hrel
    obtain ⟨cb, cp, cr, cf, crep⟩ := c
    simp only at hb
    subst hb
    simp [fusionParts, hrel]

theorem one_le_toNat_max_one (x : ℤ) : 1 ≤ (max 1 x).toNat := by
  have h := le_max_left (1:ℤ) x
  omega

/-- The effective limit is floored at 1 on both `getEffectiveLimit` paths. -/
theorem getEffectiveLimit_pos (rl : RateLimiter) (identifier : String) (opts : RLOptions) :
    1 ≤ rl.getEffectiveLimit identifier opts := by
  unfold RateLimiter.getEffectiveLimit
  split <;> exact one_le_toNat_max_one _

/-- C10 (confirmed): a denied `RateLimiter.check` consumes no window
capacity. A check on an identifier with no bucket is always allowed (the
effective limit is at least 1, so denial implies a bucket exists); and when
a check on an existing bucket is denied, the stored request log is exactly
the old one pruned to the window — the current timestamp is NOT appended —
with only the violations counter incremented (lastAccess and createdAt kept),
per-user limits are untouched, and every other identity's bucket, penalty
and usage history are unchanged. -/
theorem check_denied_consumes_no_capacity :
    (∀ (rl : RateLimiter) (identifier : String) (now : ℕ) (opts : RLOptions),
      rl.buckets.lookup identifier = none →
      (rl.check identifier now opts).1.allowed = true) ∧
    (∀ (rl : RateLimiter) (identifier : String) (now : ℕ) (opts : RLOptions)
        (b0 : Bucket),
      rl.buckets.lookup identifier = some b0 →
      (rl.check identifier now opts).1.allowed = false →
      ((rl.check identifier now opts).2.buckets.lookup identifier =
        some { requests := b0.requests.filter (fun ts => (ts : ℤ) > (now : ℤ) - rl.windowSize)
               createdAt := b0.createdAt
               lastAccess := b0.lastAccess
               violations := b0.violations + 1 }) ∧
      (rl.check identifier now opts).2.userLimits = rl.userLimits ∧
      (∀ id2, id2 ≠ identifier →
        (rl.check identifier now opts).2.buckets.lookup id2 = rl.buckets.lookup id2 ∧
        (rl.check identifier now opts).2.penalties.lookup id2 = rl.penalties.lookup id2 ∧
        (rl.check identifier now opts).2.history.lookup id2 = rl.history.lookup id2)) := by
  constructor
  · intro rl identifier now opts hb
    have hl := getEffectiveLimit_pos
      { rl with buckets := rl.buckets.set identifier ⟨[], now, now, 0⟩ } identifier opts
    unfold RateLimiter.check RateLimiter.getOrCreateBucket
    simp only [hb, RateLimiter.pruneOldRequests, List.filter_nil, List.length_nil]
    rw [if_neg (by omega)]
  · intro rl identifier now opts b0 hb hden
    have hcond : rl.getEffectiveLimit identifier opts ≤
        (RateLimiter.pruneOldRequests rl.windowSize b0 now).requests.length := by
      by_contra hc
      unfold RateLimiter.check RateLimiter.getOrCreateBucket at hden
      simp only [hb] at hden
      rw [if_neg hc] at hden
      simp at hden
    unfold RateLimiter.check RateLimiter.getOrCreateBucket
    simp only [hb]
    rw [if_pos hcond]
    simp only [RateLimiter.applyPenalty, RateLimiter.updateHistory, JMap.lookup_set_self]
    refine ⟨?_, ?_, ?_⟩
    · simp [RateLimiter.pruneOldRequests]
    · trivial
    · intro id2 h2
      refine ⟨?_, ?_, ?_⟩ <;> simp [JMap.lookup_set_ne _ _ _ _ h2]

/-- With no per-request limit, no (truthy) stored user limit and an
effectively unit penalty, the effective limit is exactly `defaultLimit`. -/
theorem getEffectiveLimit_unit (rl : RateLimiter) (identifier : String)
    (hpen : (truthyNum (rl.penalties.lookup identifier)).getD 1 = 1)
    (hul : truthyNat (rl.userLimits.lookup identifier) = none)
    (hL : 1 ≤ rl.defaultLimit) :
    rl.getEffectiveLimit identifier {} = rl.defaultLimit := by
  have h1 : truthyNat (RLOptions.limit {}) = none := rfl
  have h2 : truthyNum (RLOptions.riskScore {}) = none := rfl
  unfold RateLimiter.getEffectiveLimit
  simp only [h1, h2, Option.none_orElse, hul, Option.getD_none, hpen]
  rw [div_one, Int.floor_natCast]
  have hmax : max (1:ℤ) (rl.defaultLimit : ℤ) = (rl.defaultLimit : ℤ) :=
    max_eq_right (by exact_mod_cast hL)
  simp [hmax]

/-- `applyReward` is the identity while the stored penalty is absent, 0 or
already 1. -/
theorem applyReward_unit (rl : RateLimiter) (identifier : String)
    (hpen : (truthyNum (rl.penalties.lookup identifier)).getD 1 = 1) :
    rl.applyReward identifier = rl := by
  cases hp : rl.penalties.lookup identifier with
  | none => simp [RateLimiter.applyReward, hp]
  | some p =>
      rw [hp] at hpen
      by_cases hp0 : p = 0
      · subst hp0
        simp [RateLimiter.applyReward, hp]
      · have hp1 : p = 1 := by simpa [truthyNum, hp0] using hpen
        subst hp1
        simp [RateLimiter.applyReward, hp]

/-- The burst limit under the default multiplier 2. -/
theorem floor_nat_mul_two (L : ℕ) : (Int.floor ((L : ℚ) * 2)).toNat = L * 2 := by
  have h : ((L : ℚ) * 2) = ((L * 2 : ℕ) : ℚ) := by push_cast; ring
  rw [h, Int.floor_natCast, Int.toNat_natCast]

/-- A denial at exactly the limit has severity 0. -/
theorem severity_at_limit (L : ℕ) (hL : 1 ≤ L) :
    RateLimiter.calculateSeverity L L (L * 2) = 0 := by
  unfold RateLimiter.calculateSeverity
  rw [if_neg (by omega), sub_self, zero_div]

/-- One `check` under the in-window invariant: the call is allowed exactly
when the log is below the limit; an allowed call appends the timestamp and a
denied one leaves the log unchanged; the unit-penalty, untouched-user-limit
and configuration facts persist. -/
theorem check_window_step (rl : RateLimiter) (identifier : String) (now : ℕ)
    (reqs : List ℕ)
    (hb : (match rl.buckets.lookup identifier with
           | some b => b.requests | none => ([] : List ℕ)) = reqs)
    (hpen : (truthyNum (rl.penalties.lookup identifier)).getD 1 = 1)
    (hul : truthyNat (rl.userLimits.lookup identifier) = none)
    (hL : 1 ≤ rl.defaultLimit) (hBM : rl.burstMultiplier = 2)
    (hlen : reqs.length ≤ rl.defaultLimit)
    (hwin : ∀ t ∈ reqs, (t : ℤ) > (now : ℤ) - rl.windowSize) :
    ((rl.check identifier now {}).1.allowed = decide (reqs.length < rl.defaultLimit)) ∧
    ((match (rl.check identifier now {}).2.buckets.lookup identifier with
      | some b => b.requests | none => ([] : List ℕ)) =
      (if reqs.length < rl.defaultLimit then reqs ++ [now] else reqs)) ∧
    ((truthyNum ((rl.check identifier now {}).2.penalties.lookup identifier)).getD 1 = 1) ∧
    (truthyNat ((rl.check identifier now {}).2.userLimits.lookup identifier) = none) ∧
    ((rl.check identifier now {}).2.defaultLimit = rl.defaultLimit) ∧
    ((rl.check identifier now {}).2.windowSize = rl.windowSize) ∧
    ((rl.check identifier now {}).2.burstMultiplier = rl.burstMultiplier) := by
  cases hlk : rl.buckets.lookup identifier with
  | none =>
      rw [hlk] at hb
      have hre : reqs = [] := hb.symm
      subst hre
      have h0 : (0:ℕ) < rl.defaultLimit := hL
      unfold RateLimiter.check RateLimiter.getOrCreateBucket
      simp only [hlk]
      rw [getEffectiveLimit_unit { rl with buckets := rl.buckets.set identifier ⟨[], now, now, 0⟩ } identifier hpen hul hL]
      simp only [RateLimiter.pruneOldRequests, List.filter_nil, List.length_nil]
      rw [if_neg (by omega)]
      simp only [RateLimiter.updateHistory, applyReward_unit, hpen, ite_self, JMap.lookup_set_self]
      refine ⟨?_, ?_, ?_, ?_, ?_, ?_, ?_⟩ <;>
        first
          | trivial
          | exact hpen
          | exact hul
          | exact (decide_eq_true h0).symm
          | (rw [if_pos h0])
          | (rw [if_pos h0]; rfl)
  | some b =>
      rw [hlk] at hb
      have hb2 : b.requests = reqs := hb
      unfold RateLimiter.check RateLimiter.getOrCreateBucket
      simp only [hlk]
      rw [getEffectiveLimit_unit rl identifier hpen hul hL]
      have hfilter : reqs.filter
          (fun ts : ℕ => decide ((ts : ℤ) > (now : ℤ) - (rl.windowSize : ℤ))) = reqs :=
        List.filter_eq_self.mpr (fun a ha => decide_eq_true (hwin a ha))
      simp only [RateLimiter.pruneOldRequests, hb2, hfilter]
      by_cases hcnt : reqs.length < rl.defaultLimit
      · rw [if_neg (by omega)]
        simp only [RateLimiter.updateHistory, applyReward_unit, hpen, ite_self, JMap.lookup_set_self]
        refine ⟨?_, ?_, ?_, ?_, ?_, ?_, ?_⟩ <;>
          first
            | trivial
            | exact hpen
            | exact hul
            | exact (decide_eq_true hcnt).symm
            | (rw [if_pos hcnt])
            | (rw [if_pos hcnt]; rfl)
      · have hEq : reqs.length = rl.defaultLimit := by omega
        rw [if_pos (by omega)]
        rw [hEq, hBM, floor_nat_mul_two, severity_at_limit _ hL]
        have hmin : min (1 * (1 + (0:ℚ) * 0.5)) 10 = 1 := by norm_num
        simp only [RateLimiter.updateHistory, RateLimiter.applyPenalty, hpen, hmin,
          JMap.lookup_set_self]
        refine ⟨?_, ?_, ?_, ?_, ?_, ?_, ?_⟩ <;>
          first
            | trivial
            | exact hul
            | exact (decide_eq_false hcnt).symm
            | (rw [if_neg hcnt])
            | simp [truthyNum]

/-- `checkRun` unfolding on a cons. -/
theorem checkRun_cons (rl : RateLimiter) (identifier : String) (t : ℕ)
    (rest : List ℕ) (opts : RLOptions) :
    RateLimiter.checkRun rl identifier (t :: rest) opts =
      ((rl.check identifier t opts).1 ::
        (RateLimiter.checkRun (rl.check identifier t opts).2 identifier rest opts).1,
       (RateLimiter.checkRun (rl.check identifier t opts).2 identifier rest opts).2) := by
  rfl

/-- A run of checks all lying in one window: the i-th call (0-based) is
allowed exactly when the initial log length plus i is below the default
limit. -/
theorem checkRun_window (identifier : String) (ts : List ℕ) :
    ∀ (rl : RateLimiter) (tlo : ℕ) (reqs : List ℕ),
    (match rl.buckets.lookup identifier with
     | some b => b.requests | none => ([] : List ℕ)) = reqs →
    (truthyNum (rl.penalties.lookup identifier)).getD 1 = 1 →
    truthyNat (rl.userLimits.lookup identifier) = none →
    1 ≤ rl.defaultLimit → rl.burstMultiplier = 2 →
    reqs.length ≤ rl.defaultLimit →
    (∀ t ∈ reqs, tlo ≤ t) → (∀ t ∈ reqs, t < tlo + rl.windowSize) →
    (∀ t ∈ ts, tlo ≤ t ∧ t < tlo + rl.windowSize) →
    ((RateLimiter.checkRun rl identifier ts {}).1.map (fun r => r.allowed))
      = (List.range ts.length).map
          (fun i => decide (reqs.length + i < rl.defaultLimit)) := by
  induction ts with
  | nil =>
      intro rl tlo reqs _ _ _ _ _ _ _ _ _
      rfl
  | cons t rest ih =>
      intro rl tlo reqs hb hpen hul hL hBM hlen hlo hhi hts
      have hwin : ∀ x ∈ reqs, (x : ℤ) > (t : ℤ) - rl.windowSize := by
        intro x hx
        have h1 := hlo x hx
        have h2 := (hts t (by simp)).2
        omega
      obtain ⟨hstep1, hstep2, hstep3, hstep4, hstep5, hstep6, hstep7⟩ :=
        check_window_step rl identifier t reqs hb hpen hul hL hBM hlen hwin
      have hlen2 : (if reqs.length < rl.defaultLimit then reqs ++ [t] else reqs).length
          ≤ (rl.check identifier t {}).2.defaultLimit := by
        rw [hstep5]
        split_ifs with hc
        · rw [List.length_append]
          simpa using hc
        · exact hlen
      have hlo2 : ∀ x ∈ (if reqs.length < rl.defaultLimit then reqs ++ [t] else reqs),
          tlo ≤ x := by
        intro x hx
        split_ifs at hx with hc
        · rcases List.mem_append.mp hx with h | h
          · exact hlo x h
          · simp at h
            rw [h]
            exact (hts t (by simp)).1
        · exact hlo x hx
      have hhi2 : ∀ x ∈ (if reqs.length < rl.defaultLimit then reqs ++ [t] else reqs),
          x < tlo + (rl.check identifier t {}).2.windowSize := by
        rw [hstep6]
        intro x hx
        split_ifs at hx with hc
        · rcases List.mem_append.mp hx with h | h
          · exact hhi x h
          · simp at h
            rw [h]
            exact (hts t (by simp)).2
        · exact hhi x hx
      have hts2 : ∀ x ∈ rest, tlo ≤ x ∧ x < tlo + (rl.check identifier t {}).2.windowSize := by
        rw [hstep6]
        intro x hx
        exact hts x (by simp [hx])
      rw [checkRun_cons]
      simp only [List.length_cons]
      rw [List.range_succ_eq_map]
      simp only [List.map_cons, List.map_map]
      rw [hstep1]
      rw [ih (rl.check identifier t {}).2 tlo _ hstep2 hstep3 hstep4
          (by rw [hstep5]; exact hL) (hstep7.trans hBM) hlen2 hlo2 hhi2 hts2]
      simp only [Nat.add_zero]
      refine congrArg (List.cons _) (List.map_congr_left ?_)
      intro i hi
      simp only [Function.comp_apply, hstep5]
      split_ifs with hc
      · simp only [List.length_append, List.length_singleton]
        exact decide_eq_decide.mpr (by omega)
      · exact decide_eq_decide.mpr (by omega)

/-- A list splits into the part satisfying a predicate and the rest. -/
theorem length_filter_not_add {α : Type} (p : α → Bool) (l : List α) :
    (l.filter p).length + (l.filter (fun a => !p a)).length = l.length := by
  induction l with
  | nil => rfl
  | cons a l ih =>
      by_cases h : p a <;> simp [List.filter_cons, h] <;> omega

/-- C4 (confirmed): for a fresh identifier (no bucket) with unit penalty,
no truthy per-user limit and default options, the calls of a run lying
within one windowSize are allowed exactly while fewer than defaultLimit
requests have been admitted — so the first defaultLimit calls are allowed
and the (defaultLimit+1)-th is denied; and on a full bucket
(requests = defaultLimit) a check is allowed exactly when some admitted
timestamp has aged out of the window, the freed capacity (remaining + 1)
equalling the number of aged-out timestamps. -/
theorem rateLimiter_window_semantics :
    (∀ (rl : RateLimiter) (identifier : String) (tlo : ℕ) (ts : List ℕ),
      rl.buckets.lookup identifier = none →
      (truthyNum (rl.penalties.lookup identifier)).getD 1 = 1 →
      truthyNat (rl.userLimits.lookup identifier) = none →
      1 ≤ rl.defaultLimit → rl.burstMultiplier = 2 →
      (∀ t ∈ ts, tlo ≤ t ∧ t < tlo + rl.windowSize) →
      ((RateLimiter.checkRun rl identifier ts {}).1.map (fun r => r.allowed))
        = (List.range ts.length).map (fun i => decide (i < rl.defaultLimit))) ∧
    (∀ (rl : RateLimiter) (identifier : String) (now : ℕ) (b : Bucket),
      rl.buckets.lookup identifier = some b →
      (truthyNum (rl.penalties.lookup identifier)).getD 1 = 1 →
      truthyNat (rl.userLimits.lookup identifier) = none →
      1 ≤ rl.defaultLimit →
      b.requests.length = rl.defaultLimit →
      ((rl.check identifier now {}).1.allowed =
        decide (0 < (b.requests.filter
          (fun ts : ℕ => !decide ((ts : ℤ) > (now : ℤ) - (rl.windowSize : ℤ)))).length)) ∧
      ((rl.check identifier now {}).1.allowed = true →
        (rl.check identifier now {}).1.remaining + 1 =
          ((b.requests.filter
            (fun ts : ℕ => !decide ((ts : ℤ) > (now : ℤ) - (rl.windowSize : ℤ)))).length : ℤ))) := by
  constructor
  · intro rl identifier tlo ts hbk hpen hul hL hBM hts
    have hb : (match rl.buckets.lookup identifier with
               | some b => b.requests | none => ([] : List ℕ)) = [] := by rw [hbk]
    have hrun := checkRun_window identifier ts rl tlo [] hb hpen hul hL hBM
      (by simp) (by simp) (by simp) hts
    simpa only [List.length_nil, Nat.zero_add] using hrun
  · intro rl identifier now b hbk hpen hul hL hfull
    have hpm := length_filter_not_add
      (fun ts : ℕ => decide ((ts : ℤ) > (now : ℤ) - (rl.windowSize : ℤ))) b.requests
    unfold RateLimiter.check RateLimiter.getOrCreateBucket
    simp only [hbk]
    rw [getEffectiveLimit_unit rl identifier hpen hul hL]
    simp only [RateLimiter.pruneOldRequests]
    by_cases hc : (b.requests.filter
        (fun ts : ℕ => decide ((ts : ℤ) > (now : ℤ) - (rl.windowSize : ℤ)))).length
        < rl.defaultLimit
    · rw [if_neg (by omega)]
      constructor
      · exact (decide_eq_true (by omega)).symm
      · intro _
        push_cast
        omega
    · rw [if_pos (by omega)]
      constructor
      · exact (decide_eq_false (by omega)).symm
      · intro hcontra
        exact absurd hcontra (by simp)

/-- The penalty invariant only looks at the penalties map. -/
theorem penaltyInv_of_eq (rl1 rl2 : RateLimiter)
    (h : rl2.penalties = rl1.penalties) (hinv : PenaltyInv rl1) : PenaltyInv rl2 := by
  intro id2
  have := hinv id2
  unfold RateLimiter.effPenalty at this ⊢
  rw [h]
  exact this

/-- With the default burst multiplier 2, the severity of a denial lies in [0, 1]. -/
theorem calculateSeverity_mem (current limit : ℕ) (hL : 1 ≤ limit)
    (hc : limit ≤ current) :
    0 ≤ RateLimiter.calculateSeverity current limit ((Int.floor ((limit:ℚ) * 2)).toNat) ∧
    RateLimiter.calculateSeverity current limit ((Int.floor ((limit:ℚ) * 2)).toNat) ≤ 1 := by
  rw [floor_nat_mul_two]
  unfold RateLimiter.calculateSeverity
  split_ifs with h
  · norm_num
  · have hd : ((limit * 2 : ℕ) : ℚ) - (limit : ℚ) = (limit : ℚ) := by
      push_cast
      ring
    have hdpos : (0:ℚ) < ((limit * 2 : ℕ) : ℚ) - (limit : ℚ) := by
      rw [hd]
      exact_mod_cast hL
    constructor
    · apply div_nonneg
      · have : (limit : ℚ) ≤ (current : ℚ) := by exact_mod_cast hc
        linarith
      · linarith
    · rw [div_le_one hdpos]
      have hcur : current < limit * 2 := by omega
      have : (current : ℚ) ≤ ((limit * 2 : ℕ) : ℚ) := by exact_mod_cast hcur.le
      linarith

/-- Under the invariant the truthy penalty read equals the effective penalty. -/
theorem applyPenalty_cur (rl : RateLimiter) (identifier : String)
    (hinv : PenaltyInv rl) :
    (truthyNum (rl.penalties.lookup identifier)).getD 1
      = rl.effPenalty identifier := by
  have h1 := (hinv identifier).1
  unfold RateLimiter.effPenalty at h1 ⊢
  cases hp : rl.penalties.lookup identifier with
  | none => rfl
  | some p =>
      rw [hp] at h1
      simp only [Option.getD_some] at h1 ⊢
      have hne : p ≠ 0 := by
        intro h0
        rw [h0] at h1
        norm_num at h1
      simp [truthyNum, hne]

/-- `applyPenalty` keeps every penalty in [1, 10] and never decreases one. -/
theorem applyPenalty_bounds (rl : RateLimiter) (identifier : String) (sev : ℚ)
    (hs0 : 0 ≤ sev) (hs1 : sev ≤ 1) (hinv : PenaltyInv rl) :
    PenaltyInv (rl.applyPenalty identifier sev) ∧
    (∀ id2, rl.effPenalty id2 ≤ (rl.applyPenalty identifier sev).effPenalty id2) := by
  have hcur := hinv identifier
  have hcureq := applyPenalty_cur rl identifier hinv
  have hpen : (rl.applyPenalty identifier sev).penalties
      = rl.penalties.set identifier
          (min (rl.effPenalty identifier * (1 + sev * 0.5)) 10) := by
    simp only [RateLimiter.applyPenalty]
    rw [hcureq]
    split
    · rfl
    · rfl
  have hnew1 : 1 ≤ min (rl.effPenalty identifier * (1 + sev * 0.5)) 10 := by
    refine le_min ?_ (by norm_num)
    nlinarith [hcur.1, hcur.2]
  have hnew10 : min (rl.effPenalty identifier * (1 + sev * 0.5)) 10 ≤ 10 :=
    min_le_right _ _
  have hge : rl.effPenalty identifier
      ≤ min (rl.effPenalty identifier * (1 + sev * 0.5)) 10 := by
    refine le_min ?_ hcur.2
    nlinarith [hcur.1]
  constructor
  · intro id2
    unfold RateLimiter.effPenalty
    rw [hpen]
    by_cases hid : id2 = identifier
    · subst hid
      rw [JMap.lookup_set_self]
      exact ⟨hnew1, hnew10⟩
    · rw [JMap.lookup_set_ne _ _ _ _ hid]
      exact hinv id2
  · intro id2
    unfold RateLimiter.effPenalty
    rw [hpen]
    by_cases hid : id2 = identifier
    · subst hid
      rw [JMap.lookup_set_self]
      simpa [RateLimiter.effPenalty] using hge
    · rw [JMap.lookup_set_ne _ _ _ _ hid]

/-- `applyReward` keeps penalties in [1, 10] and never increases the target one. -/
theorem applyReward_bounds (rl : RateLimiter) (identifier : String)
    (hPD0 : 0 ≤ rl.penaltyDecay) (hPD1 : rl.penaltyDecay ≤ 1)
    (hinv : PenaltyInv rl) :
    PenaltyInv (rl.applyReward identifier) ∧
    (rl.applyReward identifier).effPenalty identifier ≤ rl.effPenalty identifier := by
  cases hp : rl.penalties.lookup identifier with
  | none =>
      have : rl.applyReward identifier = rl := by
        simp only [RateLimiter.applyReward, hp]
      rw [this]
      exact ⟨hinv, le_refl _⟩
  | some p =>
      have hpv := hinv identifier
      unfold RateLimiter.effPenalty at hpv
      rw [hp] at hpv
      simp only [Option.getD_some] at hpv
      by_cases hcond : p ≠ 0 ∧ p > 1
      · by_cases hsm : max (p * rl.penaltyDecay) 1 ≤ 1.01
        · have heq : rl.applyReward identifier
              = { rl with penalties := rl.penalties.erase identifier } := by
            simp only [RateLimiter.applyReward, hp]
            rw [if_pos hcond, if_pos hsm]
          rw [heq]
          constructor
          · intro id2
            unfold RateLimiter.effPenalty
            by_cases hid : id2 = identifier
            · subst hid
              simp only [JMap.lookup_erase_self]
              norm_num
            · simp only [JMap.lookup_erase_ne _ _ _ hid]
              exact hinv id2
          · unfold RateLimiter.effPenalty
            simp only [JMap.lookup_erase_self, hp, Option.getD_none, Option.getD_some]
            linarith [hcond.2]
        · have heq : rl.applyReward identifier
              = { rl with penalties :=
                  rl.penalties.set identifier (max (p * rl.penaltyDecay) 1) } := by
            simp only [RateLimiter.applyReward, hp]
            rw [if_pos hcond, if_neg hsm]
          rw [heq]
          have hb1 : 1 ≤ max (p * rl.penaltyDecay) 1 := le_max_right _ _
          have hb10 : max (p * rl.penaltyDecay) 1 ≤ 10 := by
            refine max_le ?_ (by norm_num)
            nlinarith [hpv.1, hpv.2]
          have hble : max (p * rl.penaltyDecay) 1 ≤ p := by
            refine max_le ?_ (by linarith [hcond.2])
            nlinarith [hpv.1]
          constructor
          · intro id2
            unfold RateLimiter.effPenalty
            by_cases hid : id2 = identifier
            · subst hid
              rw [JMap.lookup_set_self]
              exact ⟨hb1, hb10⟩
            · rw [JMap.lookup_set_ne _ _ _ _ hid]
              exact hinv id2
          · unfold RateLimiter.effPenalty
            rw [JMap.lookup_set_self, hp]
            simpa using hble
      · have hp1 : p = 1 := by
          rcases hpv with ⟨h1, _⟩
          by_contra hne
          refine hcond ⟨?_, lt_of_le_of_ne h1 (Ne.symm hne)⟩
          intro h0
          rw [h0] at h1
          norm_num at h1
        have heq : rl.applyReward identifier = rl := by
          refine applyReward_unit rl identifier ?_
          rw [hp, hp1]
          simp [truthyNum]
        rw [heq]
        exact ⟨hinv, le_refl _⟩

/-- Bumping the blocked counter does not affect penalties. -/
theorem penaltyInv_blocked (X : RateLimiter) (n : ℕ) (h : PenaltyInv X) :
    PenaltyInv { X with blockedRequests := n } :=
  penaltyInv_of_eq X _ rfl h

/-- The adaptive-reward branch keeps the invariant either way. -/
theorem penaltyInv_ite_reward (c : Prop) [Decidable c] (X : RateLimiter)
    (identifier : String)
    (hPD0 : 0 ≤ X.penaltyDecay) (hPD1 : X.penaltyDecay ≤ 1) (hinv : PenaltyInv X) :
    PenaltyInv (if c then X.applyReward identifier else X) := by
  by_cases h : c
  · rw [if_pos h]
    exact (applyReward_bounds X identifier hPD0 hPD1 hinv).1
  · rw [if_neg h]
    exact hinv

/-- `check` preserves the penalty invariant under the default multiplier/decay. -/
theorem check_penaltyInv (rl : RateLimiter) (identifier : String) (now : ℕ)
    (opts : RLOptions)
    (hBM : rl.burstMultiplier = 2) (hPD0 : 0 ≤ rl.penaltyDecay)
    (hPD1 : rl.penaltyDecay ≤ 1) (hinv : PenaltyInv rl) :
    PenaltyInv (rl.check identifier now opts).2 := by
  cases hlk : rl.buckets.lookup identifier with
  | none =>
      unfold RateLimiter.check RateLimiter.getOrCreateBucket
      simp only [hlk, RateLimiter.updateHistory, RateLimiter.pruneOldRequests]
      rw [hBM]
      split
      · next h =>
          refine penaltyInv_blocked _ _ ((applyPenalty_bounds _ identifier _ ?_ ?_ ?_).1)
          · exact (calculateSeverity_mem _ _ (getEffectiveLimit_pos _ identifier opts) h).1
          · exact (calculateSeverity_mem _ _ (getEffectiveLimit_pos _ identifier opts) h).2
          · exact penaltyInv_of_eq rl _ rfl hinv
      · refine penaltyInv_ite_reward _ _ identifier ?_ ?_ ?_
        · exact hPD0
        · exact hPD1
        · exact penaltyInv_of_eq rl _ rfl hinv
  | some b =>
      unfold RateLimiter.check RateLimiter.getOrCreateBucket
      simp only [hlk, RateLimiter.updateHistory, RateLimiter.pruneOldRequests]
      rw [hBM]
      split
      · next h =>
          refine penaltyInv_blocked _ _ ((applyPenalty_bounds _ identifier _ ?_ ?_ ?_).1)
          · exact (calculateSeverity_mem _ _ (getEffectiveLimit_pos _ identifier opts) h).1
          · exact (calculateSeverity_mem _ _ (getEffectiveLimit_pos _ identifier opts) h).2
          · exact penaltyInv_of_eq rl _ rfl hinv
      · refine penaltyInv_ite_reward _ _ identifier ?_ ?_ ?_
        · exact hPD0
        · exact hPD1
        · exact penaltyInv_of_eq rl _ rfl hinv

theorem applyPenalty_config (X : RateLimiter) (identifier : String) (sev : ℚ) :
    (X.applyPenalty identifier sev).burstMultiplier = X.burstMultiplier ∧
    (X.applyPenalty identifier sev).penaltyDecay = X.penaltyDecay := by
  simp only [RateLimiter.applyPenalty]
  split
  · exact ⟨rfl, rfl⟩
  · exact ⟨rfl, rfl⟩

/-- `applyReward` either leaves the state, erases the penalty, or stores a new one. -/
theorem applyReward_cases (X : RateLimiter) (identifier : String) :
    X.applyReward identifier = X ∨
    X.applyReward identifier = { X with penalties := X.penalties.erase identifier } ∨
    ∃ v, X.applyReward identifier = { X with penalties := X.penalties.set identifier v } := by
  cases hp : X.penalties.lookup identifier with
  | none =>
      left
      simp only [RateLimiter.applyReward, hp]
  | some p =>
      by_cases hcond : p ≠ 0 ∧ p > 1
      · by_cases hsm : max (p * X.penaltyDecay) 1 ≤ 1.01
        · right
          left
          simp only [RateLimiter.applyReward, hp]
          rw [if_pos hcond, if_pos hsm]
        · right
          right
          refine ⟨max (p * X.penaltyDecay) 1, ?_⟩
          simp only [RateLimiter.applyReward, hp]
          rw [if_pos hcond, if_neg hsm]
      · left
        simp only [RateLimiter.applyReward, hp]
        rw [if_neg hcond]

/-- `applyReward` leaves the configuration untouched. -/
theorem applyReward_config (X : RateLimiter) (identifier : String) :
    (X.applyReward identifier).burstMultiplier = X.burstMultiplier ∧
    (X.applyReward identifier).penaltyDecay = X.penaltyDecay := by
  rcases applyReward_cases X identifier with h | h | ⟨v, h⟩ <;> rw [h] <;> exact ⟨rfl, rfl⟩

/-- The penalties map after `applyPenalty`. -/
theorem applyPenalty_penalties (X : RateLimiter) (identifier : String) (sev : ℚ) :
    (X.applyPenalty identifier sev).penalties
      = X.penalties.set identifier
          (min ((truthyNum (X.penalties.lookup identifier)).getD 1 * (1 + sev * 0.5)) 10) := by
  simp only [RateLimiter.applyPenalty]
  split
  · rfl
  · rfl

/-- Framed version of the applyPenalty non-decrease fact. -/
theorem effPenalty_nondecrease_of (X Z : RateLimiter) (identifier : String) (sev : ℚ)
    (hZ : Z.penalties = (X.applyPenalty identifier sev).penalties)
    (hs0 : 0 ≤ sev) (hs1 : sev ≤ 1) (hinvX : PenaltyInv X)
    (Y : RateLimiter) (hY : Y.penalties = X.penalties) :
    ∀ id2, Y.effPenalty id2 ≤ Z.effPenalty id2 := by
  intro id2
  have h := (applyPenalty_bounds X identifier sev hs0 hs1 hinvX).2 id2
  unfold RateLimiter.effPenalty at h ⊢
  rw [hY, hZ]
  exact h

theorem config_ite_reward (c : Prop) [Decidable c] (X : RateLimiter)
    (identifier : String) :
    (if c then X.applyReward identifier else X).burstMultiplier = X.burstMultiplier ∧
    (if c then X.applyReward identifier else X).penaltyDecay = X.penaltyDecay := by
  by_cases h : c
  · rw [if_pos h]
    exact applyReward_config X identifier
  · rw [if_neg h]
    exact ⟨rfl, rfl⟩

/-- `check` leaves burstMultiplier and penaltyDecay untouched. -/
theorem check_config (rl : RateLimiter) (identifier : String) (now : ℕ)
    (opts : RLOptions) :
    (rl.check identifier now opts).2.burstMultiplier = rl.burstMultiplier ∧
    (rl.check identifier now opts).2.penaltyDecay = rl.penaltyDecay := by
  cases hlk : rl.buckets.lookup identifier with
  | none =>
      unfold RateLimiter.check RateLimiter.getOrCreateBucket
      simp only [hlk, RateLimiter.updateHistory, RateLimiter.pruneOldRequests]
      split
      · exact ⟨(applyPenalty_config _ identifier _).1, (applyPenalty_config _ identifier _).2⟩
      · exact ⟨(config_ite_reward _ _ identifier).1, (config_ite_reward _ _ identifier).2⟩
  | some b =>
      unfold RateLimiter.check RateLimiter.getOrCreateBucket
      simp only [hlk, RateLimiter.updateHistory, RateLimiter.pruneOldRequests]
      split
      · exact ⟨(applyPenalty_config _ identifier _).1, (applyPenalty_config _ identifier _).2⟩
      · exact ⟨(config_ite_reward _ _ identifier).1, (config_ite_reward _ _ identifier).2⟩

/-- `reset` preserves the penalty invariant (the erased entry reads as 1). -/
theorem reset_penaltyInv (rl : RateLimiter) (identifier : String)
    (hinv : PenaltyInv rl) : PenaltyInv (rl.reset identifier) := by
  intro id2
  have hpe : (rl.reset identifier).penalties = rl.penalties.erase identifier := rfl
  unfold RateLimiter.effPenalty
  rw [hpe]
  by_cases hid : id2 = identifier
  · subst hid
    rw [JMap.lookup_erase_self]
    constructor <;> norm_num
  · rw [JMap.lookup_erase_ne _ _ _ hid]
    exact hinv id2

/-- A denied check never decreases any effective penalty. -/
theorem check_denied_nondecrease (rl : RateLimiter) (identifier : String)
    (now : ℕ) (opts : RLOptions)
    (hBM : rl.burstMultiplier = 2) (hinv : PenaltyInv rl)
    (hden : (rl.check identifier now opts).1.allowed = false) :
    ∀ id2, rl.effPenalty id2 ≤ (rl.check identifier now opts).2.effPenalty id2 := by
  cases hlk : rl.buckets.lookup identifier with
  | none =>
      unfold RateLimiter.check RateLimiter.getOrCreateBucket at hden ⊢
      simp only [hlk, RateLimiter.updateHistory, RateLimiter.pruneOldRequests] at hden ⊢
      rw [hBM] at hden ⊢
      split
      · next h =>
          refine effPenalty_nondecrease_of _ _ identifier _ rfl ?_ ?_ ?_ rl rfl
          · exact (calculateSeverity_mem _ _ (getEffectiveLimit_pos _ identifier opts) h).1
          · exact (calculateSeverity_mem _ _ (getEffectiveLimit_pos _ identifier opts) h).2
          · exact penaltyInv_of_eq rl _ rfl hinv
      · next h =>
          rw [if_neg h] at hden
          simp at hden
  | some b =>
      unfold RateLimiter.check RateLimiter.getOrCreateBucket at hden ⊢
      simp only [hlk, RateLimiter.updateHistory, RateLimiter.pruneOldRequests] at hden ⊢
      rw [hBM] at hden ⊢
      split
      · next h =>
          refine effPenalty_nondecrease_of _ _ identifier _ rfl ?_ ?_ ?_ rl rfl
          · exact (calculateSeverity_mem _ _ (getEffectiveLimit_pos _ identifier opts) h).1
          · exact (calculateSeverity_mem _ _ (getEffectiveLimit_pos _ identifier opts) h).2
          · exact penaltyInv_of_eq rl _ rfl hinv
      · next h =>
          rw [if_neg h] at hden
          simp at hden

/-- One operation preserves the penalty invariant. -/
theorem step_penaltyInv (rl : RateLimiter) (op : RateLimiter.RLOp)
    (hBM : rl.burstMultiplier = 2) (hPD0 : 0 ≤ rl.penaltyDecay)
    (hPD1 : rl.penaltyDecay ≤ 1) (hinv : PenaltyInv rl) :
    PenaltyInv (rl.step op) := by
  cases op with
  | checkOp identifier now opts =>
      exact check_penaltyInv rl identifier now opts hBM hPD0 hPD1 hinv
  | resetOp identifier => exact reset_penaltyInv rl identifier hinv

/-- One operation leaves the configuration untouched. -/
theorem step_config (rl : RateLimiter) (op : RateLimiter.RLOp) :
    (rl.step op).burstMultiplier = rl.burstMultiplier ∧
    (rl.step op).penaltyDecay = rl.penaltyDecay := by
  cases op with
  | checkOp identifier now opts => exact check_config rl identifier now opts
  | resetOp identifier => exact ⟨rfl, rfl⟩

/-- Any operation sequence preserves the penalty invariant. -/
theorem steps_penaltyInv (ops : List RateLimiter.RLOp) :
    ∀ (rl : RateLimiter), rl.burstMultiplier = 2 → 0 ≤ rl.penaltyDecay →
    rl.penaltyDecay ≤ 1 → PenaltyInv rl → PenaltyInv (rl.steps ops) := by
  induction ops with
  | nil => intro rl _ _ _ hinv; exact hinv
  | cons op rest ih =>
      intro rl hBM hPD0 hPD1 hinv
      have hstep : rl.steps (op :: rest) = (rl.step op).steps rest := rfl
      rw [hstep]
      exact ih (rl.step op)
        ((step_config rl op).1.trans hBM)
        (by rw [(step_config rl op).2]; exact hPD0)
        (by rw [(step_config rl op).2]; exact hPD1)
        (step_penaltyInv rl op hBM hPD0 hPD1 hinv)

/-- An allowed but non-compliant check leaves the penalties map unchanged. -/
theorem check_allowed_noncompliant_penalties (rl : RateLimiter) (identifier : String)
    (now : ℕ) (opts : RLOptions)
    (hallow : (rl.check identifier now opts).1.allowed = true)
    (hncomp : ¬((rl.getOrCreateBucket identifier now).2.adaptiveEnabled = true ∧
      ((RateLimiter.pruneOldRequests (rl.getOrCreateBucket identifier now).2.windowSize
          (rl.getOrCreateBucket identifier now).1 now).requests.length : ℚ) <
        ((rl.getOrCreateBucket identifier now).2.getEffectiveLimit identifier opts : ℚ) * 0.5)) :
    (rl.check identifier now opts).2.penalties = rl.penalties := by
  cases hlk : rl.buckets.lookup identifier with
  | none =>
      unfold RateLimiter.check at hallow ⊢
      simp only [RateLimiter.getOrCreateBucket, hlk, RateLimiter.updateHistory,
        RateLimiter.pruneOldRequests] at hallow hncomp ⊢
      split
      · next h =>
          rw [if_pos h] at hallow
          simp at hallow
      · next h =>
          simp only [if_neg hncomp]
  | some b =>
      unfold RateLimiter.check at hallow ⊢
      simp only [RateLimiter.getOrCreateBucket, hlk, RateLimiter.updateHistory,
        RateLimiter.pruneOldRequests] at hallow hncomp ⊢
      split
      · next h =>
          rw [if_pos h] at hallow
          simp at hallow
      · next h =>
          simp only [if_neg hncomp]

/-- C5 (confirmed): under the default burst multiplier 2 and penalty decay
0.95 (any decay in [0, 1]), every sequence of check/reset operations keeps
every stored penalty in [1, 10] with an absent entry reading as 1; a denied
check never decreases any effective penalty; an allowed check whose traffic
is not compliant (not under half the effective limit with adaptive mode on)
leaves the penalties map unchanged — so a decrease can only come from the
reward on a compliant allowed request; and the reward itself moves the
target penalty downward, never below 1. -/
theorem penalty_bounds_and_decay :
    (∀ (rl : RateLimiter) (ops : List RateLimiter.RLOp),
       rl.burstMultiplier = 2 → 0 ≤ rl.penaltyDecay → rl.penaltyDecay ≤ 1 →
       PenaltyInv rl → PenaltyInv (rl.steps ops)) ∧
    (∀ (rl : RateLimiter) (identifier : String) (now : ℕ) (opts : RLOptions),
       rl.burstMultiplier = 2 → PenaltyInv rl →
       (rl.check identifier now opts).1.allowed = false →
       ∀ id2, rl.effPenalty id2 ≤ (rl.check identifier now opts).2.effPenalty id2) ∧
    (∀ (rl : RateLimiter) (identifier : String) (now : ℕ) (opts : RLOptions),
       (rl.check identifier now opts).1.allowed = true →
       ¬((rl.getOrCreateBucket identifier now).2.adaptiveEnabled = true ∧
         ((RateLimiter.pruneOldRequests (rl.getOrCreateBucket identifier now).2.windowSize
             (rl.getOrCreateBucket identifier now).1 now).requests.length : ℚ) <
           ((rl.getOrCreateBucket identifier now).2.getEffectiveLimit identifier opts : ℚ) * 0.5) →
       (rl.check identifier now opts).2.penalties = rl.penalties) ∧
    (∀ (rl : RateLimiter) (identifier : String),
       0 ≤ rl.penaltyDecay → rl.penaltyDecay ≤ 1 → PenaltyInv rl →
       (rl.applyReward identifier).effPenalty identifier ≤ rl.effPenalty identifier ∧
       1 ≤ (rl.applyReward identifier).effPenalty identifier) :=
  ⟨fun rl ops hBM h0 h1 hinv => steps_penaltyInv ops rl hBM h0 h1 hinv,
   fun rl identifier now opts hBM hinv hden =>
     check_denied_nondecrease rl identifier now opts hBM hinv hden,
   fun rl identifier now opts hallow hncomp =>
     check_allowed_noncompliant_penalties rl identifier now opts hallow hncomp,
   fun rl identifier h0 h1 hinv =>
     ⟨(applyReward_bounds rl identifier h0 h1 hinv).2,
      ((applyReward_bounds rl identifier h0 h1 hinv).1 identifier).1⟩⟩

end RiskEngineJS
